import Mathlib

/-!
# Bouncing balls: a verification development for `script.js`

The program animates disks in a rectangular canvas.  Its physics lives in
`Ball.update` (integration and wall bounce), `checkCollisions` (pairwise
elastic collision), `resetBalls` and the click handler that adds a ball.

Numbers: JavaScript numbers are embedded as elements of a linearly ordered
field `α` with exact arithmetic (rounding, NaN and signed zeros are outside
the model).  The functions of the host object `Math` that the program calls are
not part of the program; they are taken as a parameter `JSMath α`, and
`JSMath.Exact` states what the mathematical functions satisfy.  `realMath` is
the instance given by the real functions.  Every call of `Math.random()` is an
explicit argument.

Scope of the exact model.  Control flow, clamping, signs, counting and the frame
queue do not depend on rounding, and the results about them are results about
the script.  The double operations of the script round, and `Math.sin`,
`Math.cos` and `Math.atan2` on doubles satisfy `JSMath.Exact` only at special
arguments (angle 0, coincident centers, centers on a horizontal line with the
second to the right).  Identities that need exact products or `JSMath.Exact` at
other arguments (conservation of the squared speeds and of the velocity sum,
exchange of the normal components, separation to `r1 + r2`, independence of the
order) are identities of the exact model; the script satisfies them up to
rounding only.  They are stated below as lemmas of the model.
-/

namespace BouncingBalls

/-- The functions of the host object `Math` used by `checkCollisions`. -/
structure JSMath (α : Type) where
  /-- The function `Math.sqrt`. -/
  sqrt : α → α
  /-- The function `Math.atan2`, called as `atan2 y x`. -/
  atan2 : α → α → α
  /-- The function `Math.sin`. -/
  sin : α → α
  /-- The function `Math.cos`. -/
  cos : α → α

/-- The fields of a `Ball` object, in the order the constructor assigns them. -/
structure Ball (α : Type) where
  x : α
  y : α
  radius : α
  color : String
  dx : α
  dy : α
  gravity : α
  friction : α
  bounce : α
  deriving DecidableEq

/-- The canvas: `canvas.width` and `canvas.height`. -/
structure Canvas (α : Type) where
  width : α
  height : α
  deriving DecidableEq

/-- The mutable state of the script together with the frame queue of the host:
the array `balls`, the variables `isPaused` and `animationId` (`none` while it
is `undefined`), the handles of the frames that `requestAnimationFrame` has
queued and that have neither run nor been cancelled, and the handle that the
next call of `requestAnimationFrame` returns. -/
structure State (α : Type) where
  balls : List (Ball α)
  isPaused : Bool
  animationId : Option Nat
  pending : List Nat
  nextHandle : Nat

/-- What can happen after the script has loaded: the host runs the queued frame
with handle `h`, the space key, the key `r` (with the random numbers its loop
draws), a click at `(x, y)` (with the four random numbers the handler draws). -/
inductive Event (α : Type) where
  | frame (h : Nat)
  | toggle
  | reset (rand : Nat → α × α)
  | click (x y r0 r1 r2 r3 : α)

/-- The operations on the store alone: one simulation step, the reset loop, one
click-add. -/
inductive StoreOp (α : Type) where
  | step
  | reset (rand : Nat → α × α)
  | click (x y r0 r1 r2 r3 : α)

section Program

variable {α : Type} [LinearOrderedField α]

/-- The constructor `new Ball(x, y, radius, color)`; `u` and `v` are the results of the two calls
of `Math.random()` in the constructor. -/
def Ball.new (x y radius : α) (color : String) (u v : α) : Ball α :=
  { x := x
    y := y
    radius := radius
    color := color
    dx := (u - 0.5) * 8
    dy := (v - 0.5) * 8
    gravity := 0.2
    friction := 0.99
    bounce := 0.8 }

/-- The two statements `this.x += this.dx; this.y += this.dy` of `Ball.update`. -/
def Ball.integrate (b : Ball α) : Ball α :=
  { b with x := b.x + b.dx, y := b.y + b.dy }

/-- The first `if` of `Ball.update`: the left and right walls. -/
def Ball.bounceSides (b : Ball α) (canvas : Canvas α) : Ball α :=
  if b.x - b.radius ≤ 0 ∨ b.x + b.radius ≥ canvas.width then
    { b with
      dx := -b.dx * b.bounce
      x := max b.radius (min (canvas.width - b.radius) b.x) }
  else b

/-- The second `if` of `Ball.update`: the bottom wall. -/
def Ball.bounceBottom (b : Ball α) (canvas : Canvas α) : Ball α :=
  if b.y + b.radius ≥ canvas.height then
    { b with
      dy := -b.dy * b.bounce
      y := canvas.height - b.radius }
  else b

/-- The third `if` of `Ball.update`: the ceiling. -/
def Ball.bounceTop (b : Ball α) : Ball α :=
  if b.y - b.radius ≤ 0 then
    { b with
      dy := -b.dy * b.bounce
      y := b.radius }
  else b

/-- The method `Ball.update()`: integration, then the three wall checks in program order. -/
def Ball.update (b : Ball α) (canvas : Canvas α) : Ball α :=
  ((b.integrate.bounceSides canvas).bounceBottom canvas).bounceTop

/-- The value `distance` of `checkCollisions` for the pair `(ball1, ball2)`:
`Math.sqrt(dx * dx + dy * dy)` with `dx = ball2.x - ball1.x` and
`dy = ball2.y - ball1.y`. -/
def centerDistance (M : JSMath α) (ball1 ball2 : Ball α) : α :=
  M.sqrt ((ball2.x - ball1.x) * (ball2.x - ball1.x)
    + (ball2.y - ball1.y) * (ball2.y - ball1.y))

/-- The test `distance < ball1.radius + ball2.radius` of `checkCollisions`. -/
def colliding (M : JSMath α) (ball1 ball2 : Ball α) : Prop :=
  centerDistance M ball1 ball2 < ball1.radius + ball2.radius

instance (M : JSMath α) (ball1 ball2 : Ball α) : Decidable (colliding M ball1 ball2) := by
  unfold colliding; infer_instance

/-- The body of the inner loop of `checkCollisions` for the pair
`(ball1, ball2)`: the two balls after the iteration. -/
def resolvePair (M : JSMath α) (ball1 ball2 : Ball α) : Ball α × Ball α :=
  let dx := ball2.x - ball1.x
  let dy := ball2.y - ball1.y
  let distance := M.sqrt (dx * dx + dy * dy)
  if distance < ball1.radius + ball2.radius then
    let angle := M.atan2 dy dx
    let sin := M.sin angle
    let cos := M.cos angle
    let vx1 := ball1.dx * cos + ball1.dy * sin
    let vy1 := ball1.dy * cos - ball1.dx * sin
    let vx2 := ball2.dx * cos + ball2.dy * sin
    let vy2 := ball2.dy * cos - ball2.dx * sin
    let overlap := (ball1.radius + ball2.radius - distance) / 2
    let moveX := overlap * cos
    let moveY := overlap * sin
    ({ ball1 with
        dx := vx2 * cos - vy1 * sin
        dy := vy1 * cos + vx2 * sin
        x := ball1.x - moveX
        y := ball1.y - moveY },
     { ball2 with
        dx := vx1 * cos - vy2 * sin
        dy := vy2 * cos + vx1 * sin
        x := ball2.x + moveX
        y := ball2.y + moveY })
  else (ball1, ball2)

/-- One iteration of the inner loop on the array: `balls[i]` and `balls[j]` are
read, resolved, and written back (the objects are mutated in place). -/
def collideAt (M : JSMath α) (balls : List (Ball α)) (i j : Nat) : List (Ball α) :=
  match balls[i]?, balls[j]? with
  | some ball1, some ball2 =>
    ((balls.set i (resolvePair M ball1 ball2).1).set j (resolvePair M ball1 ball2).2)
  | _, _ => balls

/-- The inner loop `for (let j = i + 1; j < balls.length; j++)`. -/
def collideRow (M : JSMath α) (balls : List (Ball α)) (i : Nat) : List (Ball α) :=
  (List.range' (i + 1) (balls.length - (i + 1))).foldl (fun bs j => collideAt M bs i j) balls

/-- The function `checkCollisions()`: the outer loop `for (let i = 0; i < balls.length; i++)`. -/
def checkCollisions (M : JSMath α) (balls : List (Ball α)) : List (Ball α) :=
  (List.range balls.length).foldl (fun bs i => collideRow M bs i) balls

/-- The physics of one frame of `animate` when not paused: `ball.update()` for
every ball, then `checkCollisions()`. -/
def simulationStep (M : JSMath α) (balls : List (Ball α)) (canvas : Canvas α) :
    List (Ball α) :=
  checkCollisions M (balls.map (fun ball => ball.update canvas))

/-- The callback of `balls.forEach` in `resetBalls`; `u` and `v` are the two
results of `Math.random()`. -/
def resetBall (ball : Ball α) (index : Nat) (u v : α) : Ball α :=
  { ball with
    x := 100 + (index : α) * 100
    y := 100 + ((index % 3 : Nat) : α) * 50
    dx := (u - 0.5) * 8
    dy := (v - 0.5) * 8 }

/-- The loop of `resetBalls` from index `index` on; `rand index` is the pair of
random numbers drawn for the ball at `index`. -/
def resetFrom (rand : Nat → α × α) : Nat → List (Ball α) → List (Ball α)
  | _, [] => []
  | index, ball :: rest =>
    resetBall ball index (rand index).1 (rand index).2 :: resetFrom rand (index + 1) rest

/-- The body-reset loop of `resetBalls`: `balls.forEach((ball, index) => ...)`. -/
def resetLoop (rand : Nat → α × α) (balls : List (Ball α)) : List (Ball α) :=
  resetFrom rand 0 balls

/-- The end of the click handler: `balls.push(newBall)` and then
`if (balls.length > 15) balls.shift()`. -/
def addBall (balls : List (Ball α)) (newBall : Ball α) : List (Ball α) :=
  let pushed := balls ++ [newBall]
  if pushed.length > 15 then pushed.tail else pushed

/-- The palette of the click handler. -/
def colors : List String := ["#FFFFFF", "#0066FF", "#FF0000", "#00FF00"]

/-- The click handler at canvas position `(x, y)`; `r0 .. r3` are the results of
the calls of `Math.random()` in program order (colour, radius, `dx`, `dy`). -/
def onClick [FloorRing α] (balls : List (Ball α)) (x y r0 r1 r2 r3 : α) : List (Ball α) :=
  let randomColor := colors.getD (Int.toNat ⌊r0 * (colors.length : α)⌋) "undefined"
  addBall balls (Ball.new x y (15 + r1 * 15) randomColor r2 r3)

/-- The array `balls` as the script creates it; `rand k` is the pair of random
numbers drawn by the constructor of the ball at index `k`. -/
def initialBalls (rand : Nat → α × α) : List (Ball α) :=
  [ Ball.new 100 100 20 "#FFFFFF" (rand 0).1 (rand 0).2,
    Ball.new 200 150 25 "#0066FF" (rand 1).1 (rand 1).2,
    Ball.new 300 200 30 "#FF0000" (rand 2).1 (rand 2).2,
    Ball.new 400 100 22 "#FFFFFF" (rand 3).1 (rand 3).2,
    Ball.new 500 250 28 "#0066FF" (rand 4).1 (rand 4).2,
    Ball.new 150 300 26 "#FF0000" (rand 5).1 (rand 5).2,
    Ball.new 250 400 24 "#00FF00" (rand 6).1 (rand 6).2,
    Ball.new 600 350 27 "#00FF00" (rand 7).1 (rand 7).2 ]

/-- A white ball as the constructor builds it, with the velocity `(dx, dy)` in
place of the random one. -/
def Ball.moving (x y radius dx dy : α) : Ball α :=
  { x := x
    y := y
    radius := radius
    color := "#FFFFFF"
    dx := dx
    dy := dy
    gravity := 0.2
    friction := 0.99
    bounce := 0.8 }

/-- A canvas of 640 by 480. -/
def canvas640 : Canvas α :=
  { width := 640, height := 480 }

/-- A ball lies inside the walls: `radius ≤ x ≤ W - radius` and
`radius ≤ y ≤ H - radius`. -/
def Ball.inside (b : Ball α) (canvas : Canvas α) : Prop :=
  b.radius ≤ b.x ∧ b.x ≤ canvas.width - b.radius ∧
  b.radius ≤ b.y ∧ b.y ≤ canvas.height - b.radius

/-- What the mathematical functions behind `Math.sqrt`, `Math.atan2`, `Math.sin`
and `Math.cos` satisfy as functions of real numbers.  The functions of the host
on doubles satisfy these equations at `sqrt 0`, `atan2 0 0`, `cos 0`, `sin 0` and
for centers on a horizontal line, and up to rounding elsewhere. -/
structure JSMath.Exact (M : JSMath α) : Prop where
  sqrt_nonneg : ∀ a : α, 0 ≤ a → 0 ≤ M.sqrt a
  sqrt_mul_self : ∀ a : α, 0 ≤ a → M.sqrt a * M.sqrt a = a
  cos_sq_add_sin_sq : ∀ t : α, M.cos t * M.cos t + M.sin t * M.sin t = 1
  cos_atan2 : ∀ y x : α, (x ≠ 0 ∨ y ≠ 0) →
    M.cos (M.atan2 y x) * M.sqrt (x * x + y * y) = x
  sin_atan2 : ∀ y x : α, (x ≠ 0 ∨ y ≠ 0) →
    M.sin (M.atan2 y x) * M.sqrt (x * x + y * y) = y
  atan2_zero : M.atan2 0 0 = 0
  cos_zero : M.cos 0 = 1
  sin_zero : M.sin 0 = 0

/-- What `Math.random()` returns: a number in `[0, 1)`. -/
def isRandom (u : α) : Prop :=
  0 ≤ u ∧ u < 1

/-- The squared speed `dx^2 + dy^2` of a ball. -/
def Ball.speedSq (b : Ball α) : α :=
  b.dx ^ 2 + b.dy ^ 2

/-- The sum of `dx^2 + dy^2` over the store. -/
def totalSpeedSq (balls : List (Ball α)) : α :=
  (balls.map Ball.speedSq).sum

/-- The function `animate()`: nothing when paused; otherwise the simulation step
and `animationId = requestAnimationFrame(animate)`, which queues a frame under a
fresh handle and returns the handle. -/
def animate (M : JSMath α) (canvas : Canvas α) (s : State α) : State α :=
  if s.isPaused then s
  else
    { s with
      balls := simulationStep M s.balls canvas
      animationId := some s.nextHandle
      pending := s.pending ++ [s.nextHandle]
      nextHandle := s.nextHandle + 1 }

/-- The host function `cancelAnimationFrame(h)`: the frame queued under `h`, if
there is one, leaves the queue. -/
def cancelAnimationFrame (h : Nat) (s : State α) : State α :=
  { s with pending := s.pending.erase h }

/-- The function `toggleAnimation()`. -/
def toggleAnimation (M : JSMath α) (canvas : Canvas α) (s : State α) : State α :=
  let s1 := { s with isPaused := !s.isPaused }
  if !s1.isPaused then animate M canvas s1 else s1

/-- The function `resetBalls()`: `if (animationId) cancelAnimationFrame(animationId)`
(a handle is truthy when it is not 0), the reset loop, `isPaused = false`,
`animate()`. -/
def resetBalls (M : JSMath α) (canvas : Canvas α) (rand : Nat → α × α) (s : State α) :
    State α :=
  let s1 :=
    match s.animationId with
    | some h => if h ≠ 0 then cancelAnimationFrame h s else s
    | none => s
  let s2 := { s1 with balls := resetLoop rand s1.balls }
  let s3 := { s2 with isPaused := false }
  animate M canvas s3

/-- The host runs the frame queued under `h`: it leaves the queue and
`animate()` is called.  A handle that is not queued runs nothing. -/
def runFrame (M : JSMath α) (canvas : Canvas α) (h : Nat) (s : State α) : State α :=
  if h ∈ s.pending then animate M canvas { s with pending := s.pending.erase h } else s

/-- The state when the script has loaded: the seeded store, `isPaused = false`,
`animationId` undefined, no frame queued (handles start at 1), and then the call
`animate()` of the last but one statement. -/
def startup (M : JSMath α) (canvas : Canvas α) (rand : Nat → α × α) : State α :=
  animate M canvas
    { balls := initialBalls rand
      isPaused := false
      animationId := none
      pending := []
      nextHandle := 1 }

/-- The effect of one event on the state (the `keydown` and `click` listeners and
the frame callback). -/
def Event.apply [FloorRing α] (M : JSMath α) (canvas : Canvas α) (s : State α) :
    Event α → State α
  | Event.frame h => runFrame M canvas h s
  | Event.toggle => toggleAnimation M canvas s
  | Event.reset rand => resetBalls M canvas rand s
  | Event.click x y r0 r1 r2 r3 => { s with balls := onClick s.balls x y r0 r1 r2 r3 }

/-- The state after a sequence of events. -/
def run [FloorRing α] (M : JSMath α) (canvas : Canvas α) (events : List (Event α))
    (s : State α) : State α :=
  events.foldl (Event.apply M canvas) s

/-- The random numbers of an event are results of `Math.random()`. -/
def Event.valid : Event α → Prop
  | Event.frame _ => True
  | Event.toggle => True
  | Event.reset rand => ∀ k, isRandom (rand k).1 ∧ isRandom (rand k).2
  | Event.click _ _ r0 r1 r2 r3 => isRandom r0 ∧ isRandom r1 ∧ isRandom r2 ∧ isRandom r3

/-- The effect of one store operation on the store. -/
def StoreOp.apply [FloorRing α] (M : JSMath α) (canvas : Canvas α) (balls : List (Ball α)) :
    StoreOp α → List (Ball α)
  | StoreOp.step => simulationStep M balls canvas
  | StoreOp.reset rand => resetLoop rand balls
  | StoreOp.click x y r0 r1 r2 r3 => onClick balls x y r0 r1 r2 r3

/-- The random numbers of a store operation are results of `Math.random()`. -/
def StoreOp.valid : StoreOp α → Prop
  | StoreOp.step => True
  | StoreOp.reset rand => ∀ k, isRandom (rand k).1 ∧ isRandom (rand k).2
  | StoreOp.click _ _ r0 r1 r2 r3 => isRandom r0 ∧ isRandom r1 ∧ isRandom r2 ∧ isRandom r3

end Program

/-- The real functions behind `Math`: `atan2 y x` is the argument of `x + y i`. -/
noncomputable def realMath : JSMath ℝ where
  sqrt := Real.sqrt
  atan2 := fun y x => Complex.arg ⟨x, y⟩
  sin := Real.sin
  cos := Real.cos

theorem realMath_exact : realMath.Exact where
  sqrt_nonneg := fun a _ => Real.sqrt_nonneg a
  sqrt_mul_self := fun a h => Real.mul_self_sqrt h
  cos_sq_add_sin_sq := fun t => by
    have := Real.cos_sq_add_sin_sq t
    simp only [realMath]; nlinarith
  cos_atan2 := fun y x h => by
    have hne : (⟨x, y⟩ : ℂ) ≠ 0 := by
      intro h0
      have h1 := congrArg Complex.re h0
      have h2 := congrArg Complex.im h0
      simp at h1 h2
      rcases h with h | h
      · exact h h1
      · exact h h2
    have habs : Complex.abs ⟨x, y⟩ = Real.sqrt (x * x + y * y) := by
      rw [Complex.abs_apply, Complex.normSq_mk]
    have hpos : Complex.abs ⟨x, y⟩ ≠ 0 := by simpa using hne
    simp only [realMath]
    rw [Complex.cos_arg hne, ← habs]
    field_simp
  sin_atan2 := fun y x h => by
    have hne : (⟨x, y⟩ : ℂ) ≠ 0 := by
      intro h0
      have h1 := congrArg Complex.re h0
      have h2 := congrArg Complex.im h0
      simp at h1 h2
      rcases h with h | h
      · exact h h1
      · exact h h2
    have habs : Complex.abs ⟨x, y⟩ = Real.sqrt (x * x + y * y) := by
      rw [Complex.abs_apply, Complex.normSq_mk]
    have hpos : Complex.abs ⟨x, y⟩ ≠ 0 := by simpa using hne
    simp only [realMath]
    rw [Complex.sin_arg, ← habs]
    field_simp
  atan2_zero := by
    show Complex.arg ⟨0, 0⟩ = 0
    have : (⟨0, 0⟩ : ℂ) = 0 := rfl
    rw [this, Complex.arg_zero]
  cos_zero := Real.cos_zero
  sin_zero := Real.sin_zero

/-! ## `Ball.update` -/

section Update

variable {α : Type} [LinearOrderedField α]

theorem Ball.integrate_bounceSides_y (b : Ball α) (canvas : Canvas α) :
    (b.integrate.bounceSides canvas).y = b.y + b.dy := by
  unfold Ball.bounceSides Ball.integrate
  split <;> rfl

theorem Ball.integrate_bounceSides_dy (b : Ball α) (canvas : Canvas α) :
    (b.integrate.bounceSides canvas).dy = b.dy := by
  unfold Ball.bounceSides Ball.integrate
  split <;> rfl

theorem Ball.bounceSides_radius (b : Ball α) (canvas : Canvas α) :
    (b.bounceSides canvas).radius = b.radius := by
  unfold Ball.bounceSides
  split <;> rfl

theorem Ball.bounceBottom_radius (b : Ball α) (canvas : Canvas α) :
    (b.bounceBottom canvas).radius = b.radius := by
  unfold Ball.bounceBottom
  split <;> rfl

theorem Ball.bounceTop_radius (b : Ball α) : b.bounceTop.radius = b.radius := by
  unfold Ball.bounceTop
  split <;> rfl

theorem Ball.update_radius (b : Ball α) (canvas : Canvas α) :
    (b.update canvas).radius = b.radius := by
  unfold Ball.update
  rw [Ball.bounceTop_radius, Ball.bounceBottom_radius, Ball.bounceSides_radius]
  rfl

/-- After the side check the abscissa lies between the side walls, when the
canvas is at least as wide as the ball. -/
theorem Ball.bounceSides_x_inside (b : Ball α) (canvas : Canvas α)
    (hW : 2 * b.radius ≤ canvas.width) :
    b.radius ≤ (b.bounceSides canvas).x ∧
      (b.bounceSides canvas).x ≤ canvas.width - b.radius := by
  unfold Ball.bounceSides
  split
  · refine ⟨le_max_left _ _, max_le (by linarith) (min_le_left _ _)⟩
  · rename_i h
    push_neg at h
    constructor <;> linarith [h.1, h.2]

/-- After the bottom and the ceiling checks the ordinate lies between floor and
ceiling, when the canvas is at least as high as the ball. -/
theorem Ball.bounceTop_bounceBottom_y_inside (b : Ball α) (canvas : Canvas α)
    (hH : 2 * b.radius ≤ canvas.height) :
    b.radius ≤ ((b.bounceBottom canvas).bounceTop).y ∧
      ((b.bounceBottom canvas).bounceTop).y ≤ canvas.height - b.radius := by
  unfold Ball.bounceTop Ball.bounceBottom
  by_cases h1 : b.y + b.radius ≥ canvas.height
  · simp only [h1, if_true]
    split
    · constructor <;> simp only <;> linarith
    · rename_i h2
      simp only at h2 ⊢
      push_neg at h2
      constructor <;> linarith
  · simp only [h1, if_false]
    split
    · constructor <;> simp only <;> linarith
    · rename_i h2
      push_neg at h1 h2
      constructor <;> linarith

theorem Ball.bounceBottom_x (b : Ball α) (canvas : Canvas α) :
    (b.bounceBottom canvas).x = b.x := by
  unfold Ball.bounceBottom
  split <;> rfl

theorem Ball.bounceTop_x (b : Ball α) : b.bounceTop.x = b.x := by
  unfold Ball.bounceTop
  split <;> rfl

/-- A single `Ball.update` leaves the ball inside the walls, when the canvas is
at least as large as the ball. -/
theorem Ball.update_inside (b : Ball α) (canvas : Canvas α)
    (hW : 2 * b.radius ≤ canvas.width) (hH : 2 * b.radius ≤ canvas.height) :
    (b.update canvas).inside canvas := by
  have hr : (b.integrate.bounceSides canvas).radius = b.radius := by
    rw [Ball.bounceSides_radius]; rfl
  have hx := Ball.bounceSides_x_inside b.integrate canvas hW
  have hy := Ball.bounceTop_bounceBottom_y_inside (b.integrate.bounceSides canvas) canvas
    (by rw [hr]; exact hH)
  unfold Ball.inside
  rw [Ball.update_radius]
  unfold Ball.update
  rw [Ball.bounceTop_x, Ball.bounceBottom_x]
  rw [hr] at hy
  exact ⟨hx.1, hx.2, hy.1, hy.2⟩

end Update

/-! ## `checkCollisions` -/

section Collisions

variable {α : Type} [LinearOrderedField α]

theorem resolvePair_of_not_colliding (M : JSMath α) (b1 b2 : Ball α)
    (h : ¬ colliding M b1 b2) : resolvePair M b1 b2 = (b1, b2) := by
  unfold colliding centerDistance at h
  unfold resolvePair
  simp only [h, if_false]

theorem resolvePair_of_colliding (M : JSMath α) (b1 b2 : Ball α)
    (h : colliding M b1 b2) :
    resolvePair M b1 b2 =
      ({ b1 with
          dx := (b2.dx * M.cos (M.atan2 (b2.y - b1.y) (b2.x - b1.x))
                  + b2.dy * M.sin (M.atan2 (b2.y - b1.y) (b2.x - b1.x)))
                  * M.cos (M.atan2 (b2.y - b1.y) (b2.x - b1.x))
                - (b1.dy * M.cos (M.atan2 (b2.y - b1.y) (b2.x - b1.x))
                  - b1.dx * M.sin (M.atan2 (b2.y - b1.y) (b2.x - b1.x)))
                  * M.sin (M.atan2 (b2.y - b1.y) (b2.x - b1.x))
          dy := (b1.dy * M.cos (M.atan2 (b2.y - b1.y) (b2.x - b1.x))
                  - b1.dx * M.sin (M.atan2 (b2.y - b1.y) (b2.x - b1.x)))
                  * M.cos (M.atan2 (b2.y - b1.y) (b2.x - b1.x))
                + (b2.dx * M.cos (M.atan2 (b2.y - b1.y) (b2.x - b1.x))
                  + b2.dy * M.sin (M.atan2 (b2.y - b1.y) (b2.x - b1.x)))
                  * M.sin (M.atan2 (b2.y - b1.y) (b2.x - b1.x))
          x := b1.x - (b1.radius + b2.radius - centerDistance M b1 b2) / 2
                  * M.cos (M.atan2 (b2.y - b1.y) (b2.x - b1.x))
          y := b1.y - (b1.radius + b2.radius - centerDistance M b1 b2) / 2
                  * M.sin (M.atan2 (b2.y - b1.y) (b2.x - b1.x)) },
       { b2 with
          dx := (b1.dx * M.cos (M.atan2 (b2.y - b1.y) (b2.x - b1.x))
                  + b1.dy * M.sin (M.atan2 (b2.y - b1.y) (b2.x - b1.x)))
                  * M.cos (M.atan2 (b2.y - b1.y) (b2.x - b1.x))
                - (b2.dy * M.cos (M.atan2 (b2.y - b1.y) (b2.x - b1.x))
                  - b2.dx * M.sin (M.atan2 (b2.y - b1.y) (b2.x - b1.x)))
                  * M.sin (M.atan2 (b2.y - b1.y) (b2.x - b1.x))
          dy := (b2.dy * M.cos (M.atan2 (b2.y - b1.y) (b2.x - b1.x))
                  - b2.dx * M.sin (M.atan2 (b2.y - b1.y) (b2.x - b1.x)))
                  * M.cos (M.atan2 (b2.y - b1.y) (b2.x - b1.x))
                + (b1.dx * M.cos (M.atan2 (b2.y - b1.y) (b2.x - b1.x))
                  + b1.dy * M.sin (M.atan2 (b2.y - b1.y) (b2.x - b1.x)))
                  * M.sin (M.atan2 (b2.y - b1.y) (b2.x - b1.x))
          x := b2.x + (b1.radius + b2.radius - centerDistance M b1 b2) / 2
                  * M.cos (M.atan2 (b2.y - b1.y) (b2.x - b1.x))
          y := b2.y + (b1.radius + b2.radius - centerDistance M b1 b2) / 2
                  * M.sin (M.atan2 (b2.y - b1.y) (b2.x - b1.x)) }) := by
  have h' := h
  unfold colliding centerDistance at h'
  unfold resolvePair centerDistance
  simp only [h', if_true]

/-- A loop whose body leaves the state as it is leaves the state as it is. -/
theorem foldl_fixed {σ ι : Type} (f : σ → ι → σ) (s : σ) (l : List ι)
    (h : ∀ a ∈ l, f s a = s) : l.foldl f s = s := by
  induction l with
  | nil => rfl
  | cons a l ih =>
    rw [List.foldl_cons, h a (List.mem_cons_self a l)]
    exact ih (fun c hc => h c (List.mem_cons_of_mem a hc))

theorem collideAt_of_not_colliding (M : JSMath α) (balls : List (Ball α)) (i j : Nat)
    (h : ∀ b1 b2, balls[i]? = some b1 → balls[j]? = some b2 → ¬ colliding M b1 b2) :
    collideAt M balls i j = balls := by
  unfold collideAt
  split
  · rename_i b1 b2 h1 h2
    rw [resolvePair_of_not_colliding M b1 b2 (h b1 b2 h1 h2)]
    have e1 : balls.set i b1 = balls := by
      apply List.ext_getElem?
      intro k
      rw [List.getElem?_set]
      split
      · rename_i hk; subst hk
        split
        · exact h1.symm
        · rename_i hlt
          rw [List.getElem?_eq_none (Nat.le_of_not_lt hlt)]
      · rfl
    have e2 : balls.set j b2 = balls := by
      apply List.ext_getElem?
      intro k
      rw [List.getElem?_set]
      split
      · rename_i hk; subst hk
        split
        · exact h2.symm
        · rename_i hlt
          rw [List.getElem?_eq_none (Nat.le_of_not_lt hlt)]
      · rfl
    simp only [e1, e2]
  · rfl

/-- When no pair of the store is flagged, `checkCollisions` returns the store. -/
theorem checkCollisions_of_no_contact (M : JSMath α) (balls : List (Ball α))
    (h : ∀ (i j : Nat) (b1 b2 : Ball α), i < j → balls[i]? = some b1 → balls[j]? = some b2 →
      ¬ colliding M b1 b2) :
    checkCollisions M balls = balls := by
  unfold checkCollisions
  apply foldl_fixed
  intro i _
  unfold collideRow
  apply foldl_fixed
  intro j hj
  rw [List.mem_range'_1] at hj
  exact collideAt_of_not_colliding M balls i j (fun b1 b2 h1 h2 => h i j b1 b2 (by omega) h1 h2)

/-- On a store of two balls `checkCollisions` runs the loop body once. -/
theorem checkCollisions_pair (M : JSMath α) (b1 b2 : Ball α) :
    checkCollisions M [b1, b2] = [(resolvePair M b1 b2).1, (resolvePair M b1 b2).2] := by
  simp [checkCollisions, collideRow, collideAt, List.range_succ, List.range']

/-- The loop body writes the two resolved balls back at their indices. -/
theorem collideAt_getElem? (M : JSMath α) (balls : List (Ball α)) (i j : Nat)
    (b1 b2 : Ball α) (hij : i < j) (h1 : balls[i]? = some b1) (h2 : balls[j]? = some b2) :
    (collideAt M balls i j)[i]? = some (resolvePair M b1 b2).1 ∧
      (collideAt M balls i j)[j]? = some (resolvePair M b1 b2).2 := by
  have hi : i < balls.length := by
    rcases Nat.lt_or_ge i balls.length with h | h
    · exact h
    · rw [List.getElem?_eq_none h] at h1; cases h1
  have hj : j < balls.length := by
    rcases Nat.lt_or_ge j balls.length with h | h
    · exact h
    · rw [List.getElem?_eq_none h] at h2; cases h2
  unfold collideAt
  simp only [h1, h2]
  constructor
  · rw [List.getElem?_set_ne (by omega), List.getElem?_set_self hi]
  · rw [List.getElem?_set_self (by rw [List.length_set]; exact hj)]

/-- The loop body leaves every other ball of the store as it is. -/
theorem collideAt_getElem?_of_ne (M : JSMath α) (balls : List (Ball α)) (i j k : Nat)
    (hki : k ≠ i) (hkj : k ≠ j) : (collideAt M balls i j)[k]? = balls[k]? := by
  unfold collideAt
  split
  · rw [List.getElem?_set_ne (Ne.symm hkj), List.getElem?_set_ne (Ne.symm hki)]
  · rfl

theorem JSMath.Exact.sqrt_mul_self_eq {M : JSMath α} (hM : M.Exact) (a : α) (h : 0 ≤ a) :
    M.sqrt (a * a) = a :=
  (mul_self_inj (hM.sqrt_nonneg _ (mul_self_nonneg a)) h).1
    (hM.sqrt_mul_self _ (mul_self_nonneg a))

theorem JSMath.Exact.centerDistance_nonneg {M : JSMath α} (hM : M.Exact) (b1 b2 : Ball α) :
    0 ≤ centerDistance M b1 b2 :=
  hM.sqrt_nonneg _ (add_nonneg (mul_self_nonneg _) (mul_self_nonneg _))

theorem JSMath.Exact.centerDistance_mul_self {M : JSMath α} (hM : M.Exact) (b1 b2 : Ball α) :
    centerDistance M b1 b2 * centerDistance M b1 b2 =
      (b2.x - b1.x) * (b2.x - b1.x) + (b2.y - b1.y) * (b2.y - b1.y) :=
  hM.sqrt_mul_self _ (add_nonneg (mul_self_nonneg _) (mul_self_nonneg _))

/-- The distance of two centers is `d` as soon as `d` is nonnegative and has
the right square. -/
theorem JSMath.Exact.centerDistance_eq {M : JSMath α} (hM : M.Exact) (b1 b2 : Ball α) (d : α)
    (hd : 0 ≤ d)
    (h : (b2.x - b1.x) * (b2.x - b1.x) + (b2.y - b1.y) * (b2.y - b1.y) = d * d) :
    centerDistance M b1 b2 = d := by
  unfold centerDistance
  rw [h]
  exact hM.sqrt_mul_self_eq d hd

/-- With distinct centers the cosine and the sine of the collision angle are
the coordinates of the unit vector from the first center to the second. -/
theorem JSMath.Exact.cos_sin_angle {M : JSMath α} (hM : M.Exact) (b1 b2 : Ball α)
    (hne : b1.x ≠ b2.x ∨ b1.y ≠ b2.y) :
    centerDistance M b1 b2 ≠ 0 ∧
    M.cos (M.atan2 (b2.y - b1.y) (b2.x - b1.x)) = (b2.x - b1.x) / centerDistance M b1 b2 ∧
    M.sin (M.atan2 (b2.y - b1.y) (b2.x - b1.x)) = (b2.y - b1.y) / centerDistance M b1 b2 := by
  have hxy : b2.x - b1.x ≠ 0 ∨ b2.y - b1.y ≠ 0 := by
    rcases hne with h | h
    · exact Or.inl (sub_ne_zero.2 (Ne.symm h))
    · exact Or.inr (sub_ne_zero.2 (Ne.symm h))
  have hc := hM.cos_atan2 (b2.y - b1.y) (b2.x - b1.x) hxy
  have hs := hM.sin_atan2 (b2.y - b1.y) (b2.x - b1.x) hxy
  have hd : centerDistance M b1 b2 ≠ 0 := by
    intro h0
    unfold centerDistance at h0
    rw [h0, mul_zero] at hc hs
    rcases hxy with h | h
    · exact h hc.symm
    · exact h hs.symm
  refine ⟨hd, ?_, ?_⟩
  · rw [eq_div_iff hd]; exact hc
  · rw [eq_div_iff hd]; exact hs

/-- The push of the positional correction, for distinct and for coincident
centers alike: the vector between the centers becomes `(r1 + r2) (cos, sin)`. -/
theorem JSMath.Exact.push_apart {M : JSMath α} (hM : M.Exact) (b1 b2 : Ball α) :
    (b2.x - b1.x) + (b1.radius + b2.radius - centerDistance M b1 b2)
        * M.cos (M.atan2 (b2.y - b1.y) (b2.x - b1.x))
      = (b1.radius + b2.radius) * M.cos (M.atan2 (b2.y - b1.y) (b2.x - b1.x)) ∧
    (b2.y - b1.y) + (b1.radius + b2.radius - centerDistance M b1 b2)
        * M.sin (M.atan2 (b2.y - b1.y) (b2.x - b1.x))
      = (b1.radius + b2.radius) * M.sin (M.atan2 (b2.y - b1.y) (b2.x - b1.x)) := by
  by_cases hne : b2.x - b1.x ≠ 0 ∨ b2.y - b1.y ≠ 0
  · have hc := hM.cos_atan2 (b2.y - b1.y) (b2.x - b1.x) hne
    have hs := hM.sin_atan2 (b2.y - b1.y) (b2.x - b1.x) hne
    unfold centerDistance
    constructor
    · linear_combination -hc
    · linear_combination -hs
  · push_neg at hne
    obtain ⟨hx, hy⟩ := hne
    have hd : centerDistance M b1 b2 = 0 := by
      apply hM.centerDistance_eq b1 b2 0 le_rfl
      rw [hx, hy]; ring
    rw [hd, hx, hy, hM.atan2_zero, hM.cos_zero, hM.sin_zero]
    constructor <;> ring

/-- In the exact model, resolution keeps the sum of the squared speeds of the
pair. -/
theorem JSMath.Exact.resolvePair_energy {M : JSMath α} (hM : M.Exact) (b1 b2 : Ball α) :
    (resolvePair M b1 b2).1.dx ^ 2 + (resolvePair M b1 b2).1.dy ^ 2
        + (resolvePair M b1 b2).2.dx ^ 2 + (resolvePair M b1 b2).2.dy ^ 2
      = b1.dx ^ 2 + b1.dy ^ 2 + b2.dx ^ 2 + b2.dy ^ 2 := by
  by_cases h : colliding M b1 b2
  · rw [resolvePair_of_colliding M b1 b2 h]
    have hcs := hM.cos_sq_add_sin_sq (M.atan2 (b2.y - b1.y) (b2.x - b1.x))
    simp only
    generalize M.cos (M.atan2 (b2.y - b1.y) (b2.x - b1.x)) = c at hcs ⊢
    generalize M.sin (M.atan2 (b2.y - b1.y) (b2.x - b1.x)) = s at hcs ⊢
    linear_combination
      (b1.dx ^ 2 + b1.dy ^ 2 + b2.dx ^ 2 + b2.dy ^ 2) * (c * c + s * s + 1) * hcs
  · rw [resolvePair_of_not_colliding M b1 b2 h]

/-- In the exact model, the centers of a flagged pair are `r1 + r2` apart after
the positional correction. -/
theorem JSMath.Exact.resolvePair_distance {M : JSMath α} (hM : M.Exact) (b1 b2 : Ball α)
    (h : colliding M b1 b2) :
    centerDistance M (resolvePair M b1 b2).1 (resolvePair M b1 b2).2
      = b1.radius + b2.radius := by
  have hR : 0 ≤ b1.radius + b2.radius :=
    le_of_lt (lt_of_le_of_lt (hM.centerDistance_nonneg b1 b2) h)
  have hcs := hM.cos_sq_add_sin_sq (M.atan2 (b2.y - b1.y) (b2.x - b1.x))
  obtain ⟨hx, hy⟩ := hM.push_apart b1 b2
  apply hM.centerDistance_eq _ _ _ hR
  rw [resolvePair_of_colliding M b1 b2 h]
  simp only
  generalize M.cos (M.atan2 (b2.y - b1.y) (b2.x - b1.x)) = c at hcs hx hy ⊢
  generalize M.sin (M.atan2 (b2.y - b1.y) (b2.x - b1.x)) = s at hcs hx hy ⊢
  generalize centerDistance M b1 b2 = d at hx hy ⊢
  have ex : b2.x + (b1.radius + b2.radius - d) / 2 * c
      - (b1.x - (b1.radius + b2.radius - d) / 2 * c) = (b1.radius + b2.radius) * c := by
    linear_combination hx
  have ey : b2.y + (b1.radius + b2.radius - d) / 2 * s
      - (b1.y - (b1.radius + b2.radius - d) / 2 * s) = (b1.radius + b2.radius) * s := by
    linear_combination hy
  rw [ex, ey]
  linear_combination (b1.radius + b2.radius) ^ 2 * hcs

/-- In the exact model, resolution of a flagged pair with distinct centers
exchanges the velocity components along the line of centers and keeps the
components across it. -/
theorem JSMath.Exact.resolvePair_exchange {M : JSMath α} (hM : M.Exact) (b1 b2 : Ball α)
    (h : colliding M b1 b2) (hne : b1.x ≠ b2.x ∨ b1.y ≠ b2.y) :
    (resolvePair M b1 b2).1.dx * ((b2.x - b1.x) / centerDistance M b1 b2)
        + (resolvePair M b1 b2).1.dy * ((b2.y - b1.y) / centerDistance M b1 b2)
      = b2.dx * ((b2.x - b1.x) / centerDistance M b1 b2)
        + b2.dy * ((b2.y - b1.y) / centerDistance M b1 b2) ∧
    (resolvePair M b1 b2).2.dx * ((b2.x - b1.x) / centerDistance M b1 b2)
        + (resolvePair M b1 b2).2.dy * ((b2.y - b1.y) / centerDistance M b1 b2)
      = b1.dx * ((b2.x - b1.x) / centerDistance M b1 b2)
        + b1.dy * ((b2.y - b1.y) / centerDistance M b1 b2) ∧
    (resolvePair M b1 b2).1.dx * (-((b2.y - b1.y) / centerDistance M b1 b2))
        + (resolvePair M b1 b2).1.dy * ((b2.x - b1.x) / centerDistance M b1 b2)
      = b1.dx * (-((b2.y - b1.y) / centerDistance M b1 b2))
        + b1.dy * ((b2.x - b1.x) / centerDistance M b1 b2) ∧
    (resolvePair M b1 b2).2.dx * (-((b2.y - b1.y) / centerDistance M b1 b2))
        + (resolvePair M b1 b2).2.dy * ((b2.x - b1.x) / centerDistance M b1 b2)
      = b2.dx * (-((b2.y - b1.y) / centerDistance M b1 b2))
        + b2.dy * ((b2.x - b1.x) / centerDistance M b1 b2) := by
  obtain ⟨_, hc, hs⟩ := hM.cos_sin_angle b1 b2 hne
  have hcs := hM.cos_sq_add_sin_sq (M.atan2 (b2.y - b1.y) (b2.x - b1.x))
  rw [resolvePair_of_colliding M b1 b2 h]
  simp only
  rw [← hc, ← hs]
  generalize M.cos (M.atan2 (b2.y - b1.y) (b2.x - b1.x)) = c at hcs ⊢
  generalize M.sin (M.atan2 (b2.y - b1.y) (b2.x - b1.x)) = s at hcs ⊢
  refine ⟨?_, ?_, ?_, ?_⟩
  · linear_combination (b2.dx * c + b2.dy * s) * hcs
  · linear_combination (b1.dx * c + b1.dy * s) * hcs
  · linear_combination (b1.dy * c - b1.dx * s) * hcs
  · linear_combination (b2.dy * c - b2.dx * s) * hcs

/-- Two centers on a horizontal line, the second to the right of the first: the
distance is the difference of the abscissas and the angle has cosine 1, sine 0. -/
theorem JSMath.Exact.horizontal {M : JSMath α} (hM : M.Exact) (b1 b2 : Ball α)
    (hy : b2.y - b1.y = 0) (hx : 0 < b2.x - b1.x) :
    centerDistance M b1 b2 = b2.x - b1.x ∧
    M.cos (M.atan2 (b2.y - b1.y) (b2.x - b1.x)) = 1 ∧
    M.sin (M.atan2 (b2.y - b1.y) (b2.x - b1.x)) = 0 := by
  have hd : centerDistance M b1 b2 = b2.x - b1.x := by
    apply hM.centerDistance_eq b1 b2 _ (le_of_lt hx)
    rw [hy]; ring
  have hne : b1.x ≠ b2.x ∨ b1.y ≠ b2.y := Or.inl (fun h => by rw [h, sub_self] at hx; exact lt_irrefl _ hx)
  obtain ⟨_, hc, hs⟩ := hM.cos_sin_angle b1 b2 hne
  refine ⟨hd, ?_, ?_⟩
  · rw [hc, hd]; exact div_self (ne_of_gt hx)
  · rw [hs, hy, zero_div]

/-- Resolution of a flagged pair whose centers lie on a horizontal line. -/
theorem JSMath.Exact.resolvePair_horizontal {M : JSMath α} (hM : M.Exact) (b1 b2 : Ball α)
    (hy : b2.y - b1.y = 0) (hx : 0 < b2.x - b1.x)
    (h : b2.x - b1.x < b1.radius + b2.radius) :
    resolvePair M b1 b2 =
      ({ b1 with
          dx := b2.dx
          x := b1.x - (b1.radius + b2.radius - (b2.x - b1.x)) / 2 },
       { b2 with
          dx := b1.dx
          x := b2.x + (b1.radius + b2.radius - (b2.x - b1.x)) / 2 }) := by
  obtain ⟨hd, hc, hs⟩ := hM.horizontal b1 b2 hy hx
  have hcol : colliding M b1 b2 := by
    unfold colliding; rw [hd]; exact h
  rw [resolvePair_of_colliding M b1 b2 hcol, hd, hc, hs]
  simp

/-- A frame in which the left ball bounces off the left wall and is then pushed
through it by the ball that follows; both come in with `dx = -4`. -/
theorem JSMath.Exact.step_at_left_wall {M : JSMath α} (hM : M.Exact) :
    simulationStep M [Ball.moving 24 100 20 (-4) 0, Ball.moving 54 100 20 (-4) 0] canvas640
      = [Ball.moving 15 100 20 (-4) 0, Ball.moving 55 100 20 3.2 0] := by
  have hA : (Ball.moving 24 100 20 (-4) 0 : Ball α).update canvas640
      = Ball.moving 20 100 20 3.2 0 := by
    norm_num [Ball.update, Ball.integrate, Ball.bounceSides, Ball.bounceBottom,
      Ball.bounceTop, Ball.moving, canvas640]
  have hB : (Ball.moving 54 100 20 (-4) 0 : Ball α).update canvas640
      = Ball.moving 50 100 20 (-4) 0 := by
    norm_num [Ball.update, Ball.integrate, Ball.bounceSides, Ball.bounceBottom,
      Ball.bounceTop, Ball.moving, canvas640]
  unfold simulationStep
  simp only [List.map_cons, List.map_nil, hA, hB]
  rw [checkCollisions_pair,
    hM.resolvePair_horizontal _ _ (by norm_num [Ball.moving]) (by norm_num [Ball.moving])
      (by norm_num [Ball.moving])]
  norm_num [Ball.moving]

/-- The head-on frame: two balls of radius 20 at `(90, 100)` and `(130, 100)` with
`dx = 5` and `dx = -5`. -/
theorem JSMath.Exact.step_head_on {M : JSMath α} (hM : M.Exact) :
    simulationStep M [Ball.moving 90 100 20 5 0, Ball.moving 130 100 20 (-5) 0] canvas640
      = [Ball.moving 90 100 20 (-5) 0, Ball.moving 130 100 20 5 0] := by
  have hA : (Ball.moving 90 100 20 5 0 : Ball α).update canvas640
      = Ball.moving 95 100 20 5 0 := by
    norm_num [Ball.update, Ball.integrate, Ball.bounceSides, Ball.bounceBottom,
      Ball.bounceTop, Ball.moving, canvas640]
  have hB : (Ball.moving 130 100 20 (-5) 0 : Ball α).update canvas640
      = Ball.moving 125 100 20 (-5) 0 := by
    norm_num [Ball.update, Ball.integrate, Ball.bounceSides, Ball.bounceBottom,
      Ball.bounceTop, Ball.moving, canvas640]
  unfold simulationStep
  simp only [List.map_cons, List.map_nil, hA, hB]
  rw [checkCollisions_pair,
    hM.resolvePair_horizontal _ _ (by norm_num [Ball.moving]) (by norm_num [Ball.moving])
      (by norm_num [Ball.moving])]
  norm_num [Ball.moving]

theorem JSMath.Exact.colliding_of_distance {M : JSMath α} (hM : M.Exact) (b1 b2 : Ball α)
    (d : α) (hd : 0 ≤ d)
    (h : (b2.x - b1.x) * (b2.x - b1.x) + (b2.y - b1.y) * (b2.y - b1.y) = d * d)
    (hlt : d < b1.radius + b2.radius) : colliding M b1 b2 := by
  unfold colliding
  rw [hM.centerDistance_eq b1 b2 d hd h]
  exact hlt

/-- The pairs `i < j` of a store of two balls: the one pair `(0, 1)`. -/
theorem pairs_of_two {β : Type} (P : β → β → Prop) (a b : β) (h : P a b) :
    ∀ (i j : Nat) (b1 b2 : β), i < j → [a, b][i]? = some b1 → [a, b][j]? = some b2 →
      P b1 b2 := by
  intro i j b1 b2 hij h1 h2
  match i, j, hij with
  | 0, 1, _ =>
    simp only [List.getElem?_cons_zero, List.getElem?_cons_succ, Option.some.injEq] at h1 h2
    rw [← h1, ← h2]; exact h
  | 0, j + 2, _ => simp at h2
  | i + 1, j + 2, _ => simp at h2

end Collisions

/-! ## The store: click-add and reset -/

section Store

variable {α : Type}

theorem addBall_of_lt (balls : List (Ball α)) (b : Ball α) (h : balls.length < 15) :
    addBall balls b = balls ++ [b] := by
  unfold addBall
  have : ¬ ((balls ++ [b]).length > 15) := by
    rw [List.length_append, List.length_singleton]; omega
  simp only [this, if_false]

theorem addBall_of_ge (balls : List (Ball α)) (b : Ball α) (h : 15 ≤ balls.length) :
    addBall balls b = balls.tail ++ [b] := by
  unfold addBall
  have h15 : (balls ++ [b]).length > 15 := by
    rw [List.length_append, List.length_singleton]; omega
  simp only [h15, if_true]
  cases balls with
  | nil => simp at h
  | cons a rest => rfl

theorem addBall_length_le (balls : List (Ball α)) (b : Ball α) (h : balls.length ≤ 15) :
    (addBall balls b).length ≤ 15 := by
  rcases Nat.lt_or_ge balls.length 15 with h1 | h1
  · rw [addBall_of_lt balls b h1, List.length_append, List.length_singleton]; omega
  · rw [addBall_of_ge balls b h1, List.length_append, List.length_singleton,
      List.length_tail]; omega

/-- A sequence of click-adds keeps the last 15 balls of all those ever in the
store. -/
theorem foldl_addBall_eq_drop (adds init : List (Ball α)) (h : init.length ≤ 15) :
    adds.foldl addBall init = (init ++ adds).drop ((init ++ adds).length - 15) := by
  induction adds generalizing init with
  | nil =>
    rw [List.foldl_nil, List.append_nil, Nat.sub_eq_zero_of_le h, List.drop_zero]
  | cons a rest ih =>
    rw [List.foldl_cons, ih (addBall init a) (addBall_length_le init a h)]
    rcases Nat.lt_or_ge init.length 15 with h1 | h1
    · rw [addBall_of_lt init a h1]
      simp
    · rw [addBall_of_ge init a h1]
      cases init with
      | nil => simp at h1
      | cons c tl =>
        have hl : tl.length = 14 := by simp at h h1; omega
        simp only [List.tail_cons, List.length_append, List.length_cons, List.length_nil,
          hl, List.cons_append, List.append_assoc, List.nil_append]
        have e1 : 14 + (rest.length + 1) - 15 = rest.length := by omega
        have e2 : 14 + (rest.length + 1) + 1 - 15 = rest.length + 1 := by omega
        rw [e1, e2, List.drop_succ_cons]

variable [LinearOrderedField α]

theorem resetFrom_length (rand : Nat → α × α) (balls : List (Ball α)) (start : Nat) :
    (resetFrom rand start balls).length = balls.length := by
  induction balls generalizing start with
  | nil => rfl
  | cons b rest ih => simp [resetFrom, ih]

theorem resetFrom_getElem? (rand : Nat → α × α) (balls : List (Ball α)) (start i : Nat) :
    (resetFrom rand start balls)[i]? =
      (balls[i]?).map (fun b => resetBall b (start + i) (rand (start + i)).1 (rand (start + i)).2) := by
  induction balls generalizing start i with
  | nil => simp [resetFrom]
  | cons b rest ih =>
    cases i with
    | zero => simp [resetFrom]
    | succ k =>
      simp only [resetFrom, List.getElem?_cons_succ]
      rw [ih (start + 1) k]
      have : start + 1 + k = start + (k + 1) := by omega
      rw [this]

end Store

/-! ## The claims -/

section Claims

variable {α : Type} [LinearOrderedField α]

/-- C1, as the code has it: in a canvas at least as wide and as high as every
ball, every ball lies inside the walls after `Ball.update` has run on every
ball, and still does after `checkCollisions` when no pair of the updated store
is flagged as colliding. -/
theorem simulationStep_inside_of_no_contact (M : JSMath α) (balls : List (Ball α))
    (canvas : Canvas α)
    (hfit : ∀ b ∈ balls, 2 * b.radius ≤ canvas.width ∧ 2 * b.radius ≤ canvas.height) :
    (∀ b ∈ balls.map (fun ball => ball.update canvas), b.inside canvas) ∧
    ((∀ (i j : Nat) (b1 b2 : Ball α), i < j →
        (balls.map (fun ball => ball.update canvas))[i]? = some b1 →
        (balls.map (fun ball => ball.update canvas))[j]? = some b2 →
        ¬ colliding M b1 b2) →
      ∀ b ∈ simulationStep M balls canvas, b.inside canvas) := by
  have hupd : ∀ b ∈ balls.map (fun ball => ball.update canvas), b.inside canvas := by
    intro b hb
    obtain ⟨a, ha, rfl⟩ := List.mem_map.1 hb
    exact Ball.update_inside a canvas (hfit a ha).1 (hfit a ha).2
  refine ⟨hupd, ?_⟩
  intro hfree b hb
  unfold simulationStep at hb
  rw [checkCollisions_of_no_contact M _ hfree] at hb
  exact hupd b hb

/-- C1 witness: two balls far from each other and from the walls. -/
theorem simulationStep_inside_of_no_contact_witness :
    (∀ b ∈ [Ball.moving (100 : ℝ) 100 20 5 0, Ball.moving 300 100 20 5 0],
      2 * b.radius ≤ (canvas640 : Canvas ℝ).width ∧
      2 * b.radius ≤ (canvas640 : Canvas ℝ).height) ∧
    (∀ b ∈ simulationStep realMath
        [Ball.moving (100 : ℝ) 100 20 5 0, Ball.moving 300 100 20 5 0] canvas640,
      b.inside canvas640) := by
  have hfit : ∀ b ∈ [Ball.moving (100 : ℝ) 100 20 5 0, Ball.moving 300 100 20 5 0],
      2 * b.radius ≤ (canvas640 : Canvas ℝ).width ∧
      2 * b.radius ≤ (canvas640 : Canvas ℝ).height := by
    intro b hb
    simp only [List.mem_cons, List.mem_singleton, List.not_mem_nil, or_false] at hb
    rcases hb with rfl | rfl <;> norm_num [Ball.moving, canvas640]
  refine ⟨hfit, (simulationStep_inside_of_no_contact realMath _ canvas640 hfit).2 ?_⟩
  have hA : (Ball.moving 100 100 20 5 0 : Ball ℝ).update canvas640
      = Ball.moving 105 100 20 5 0 := by
    norm_num [Ball.update, Ball.integrate, Ball.bounceSides, Ball.bounceBottom,
      Ball.bounceTop, Ball.moving, canvas640]
  have hB : (Ball.moving 300 100 20 5 0 : Ball ℝ).update canvas640
      = Ball.moving 305 100 20 5 0 := by
    norm_num [Ball.update, Ball.integrate, Ball.bounceSides, Ball.bounceBottom,
      Ball.bounceTop, Ball.moving, canvas640]
  simp only [List.map_cons, List.map_nil, hA, hB]
  apply pairs_of_two
  unfold colliding
  rw [(realMath_exact.horizontal _ _ (by norm_num [Ball.moving])
    (by norm_num [Ball.moving])).1]
  norm_num [Ball.moving]

/-- C1 counterexample: the canvas is 640 by 480 and both balls have radius 20.
The left ball bounces off the left wall (`x = 20`) and `checkCollisions` then
pushes it to `x = 15 < radius`. -/
theorem simulationStep_leaves_walls :
    (∀ b ∈ [Ball.moving (24 : ℝ) 100 20 (-4) 0, Ball.moving 54 100 20 (-4) 0],
      2 * b.radius ≤ (canvas640 : Canvas ℝ).width ∧
      2 * b.radius ≤ (canvas640 : Canvas ℝ).height) ∧
    simulationStep realMath
        [Ball.moving (24 : ℝ) 100 20 (-4) 0, Ball.moving 54 100 20 (-4) 0] canvas640
      = [Ball.moving 15 100 20 (-4) 0, Ball.moving 55 100 20 3.2 0] ∧
    ¬ (∀ b ∈ simulationStep realMath
        [Ball.moving (24 : ℝ) 100 20 (-4) 0, Ball.moving 54 100 20 (-4) 0] canvas640,
      b.radius ≤ b.x ∧ b.x ≤ (canvas640 : Canvas ℝ).width - b.radius ∧
      b.radius ≤ b.y ∧ b.y ≤ (canvas640 : Canvas ℝ).height - b.radius) := by
  refine ⟨?_, realMath_exact.step_at_left_wall, ?_⟩
  · intro b hb
    simp only [List.mem_cons, List.mem_singleton, List.not_mem_nil, or_false] at hb
    rcases hb with rfl | rfl <;> norm_num [Ball.moving, canvas640]
  · rw [realMath_exact.step_at_left_wall]
    intro h
    have h0 := (h (Ball.moving 15 100 20 (-4) 0) (List.mem_cons_self _ _)).1
    norm_num [Ball.moving] at h0

/-- C2, as the code has it: when the integrated position triggers the
left/right check and neither vertical check, `update` sets `dx` to
`-dx * bounce` with `bounce = 0.8` (speed `|dx| * bounce`), keeps `dy` and clamps
`x` into `[radius, W - radius]`; when the integrated position triggers only the
ceiling check, or only the floor check in a canvas higher than the ball
(`H > 2 * radius`), `dy` becomes `-dy * bounce` and `dx` is kept.  Last part: the
ball at `(5, 50)` with radius 20 and `dx = -3` in a canvas of width 640 ends with
`x = 20` and `dx = -(-3) * bounce`, the product that the code computes. -/
theorem update_wall_bounce (b : Ball α) (canvas : Canvas α) (hb : b.bounce = 0.8) :
    ((b.x + b.dx - b.radius ≤ 0 ∨ b.x + b.dx + b.radius ≥ canvas.width) →
      ¬ (b.y + b.dy + b.radius ≥ canvas.height) → ¬ (b.y + b.dy - b.radius ≤ 0) →
        (b.update canvas).dx = -b.dx * b.bounce ∧
        |(b.update canvas).dx| = |b.dx| * b.bounce ∧
        (b.update canvas).dy = b.dy ∧
        (b.update canvas).x = max b.radius (min (canvas.width - b.radius) (b.x + b.dx)) ∧
        (2 * b.radius ≤ canvas.width →
          b.radius ≤ (b.update canvas).x ∧ (b.update canvas).x ≤ canvas.width - b.radius)) ∧
    (¬ (b.x + b.dx - b.radius ≤ 0 ∨ b.x + b.dx + b.radius ≥ canvas.width) →
      ¬ (b.y + b.dy + b.radius ≥ canvas.height) → b.y + b.dy - b.radius ≤ 0 →
        (b.update canvas).dy = -b.dy * b.bounce ∧ (b.update canvas).dx = b.dx) ∧
    (¬ (b.x + b.dx - b.radius ≤ 0 ∨ b.x + b.dx + b.radius ≥ canvas.width) →
      b.y + b.dy + b.radius ≥ canvas.height → ¬ (b.y + b.dy - b.radius ≤ 0) →
      2 * b.radius < canvas.height →
        (b.update canvas).dy = -b.dy * b.bounce ∧ (b.update canvas).dx = b.dx) ∧
    (b.x = 5 → b.y = 50 → b.radius = 20 → b.dx = -3 → canvas.width = 640 →
        (b.update canvas).x = 20 ∧ (b.update canvas).dx = -(-3) * b.bounce) := by
  refine ⟨?_, ?_, ?_, ?_⟩
  · intro hs hbot htop
    have hupd : b.update canvas = { b with
        dx := -b.dx * b.bounce
        x := max b.radius (min (canvas.width - b.radius) (b.x + b.dx))
        y := b.y + b.dy } := by
      simp only [Ball.update, Ball.integrate, Ball.bounceSides, Ball.bounceBottom,
        Ball.bounceTop, hs, hbot, htop, if_true, if_false]
    rw [hupd]
    refine ⟨rfl, ?_, rfl, rfl, ?_⟩
    · simp only
      rw [abs_mul, abs_neg, abs_of_pos (by rw [hb]; norm_num : (0 : α) < b.bounce)]
    · intro hW
      exact ⟨le_max_left _ _, max_le (by linarith) (min_le_left _ _)⟩
  · intro hs hbot htop
    have hupd : b.update canvas = { b with
        x := b.x + b.dx
        dy := -b.dy * b.bounce
        y := b.radius } := by
      simp only [Ball.update, Ball.integrate, Ball.bounceSides, Ball.bounceBottom,
        Ball.bounceTop, hs, hbot, htop, if_true, if_false]
    rw [hupd]
    exact ⟨rfl, rfl⟩
  · intro hs hbot _ hH
    have htop : ¬ (canvas.height - b.radius - b.radius ≤ 0) := by
      push_neg; linarith
    have hupd : b.update canvas = { b with
        x := b.x + b.dx
        dy := -b.dy * b.bounce
        y := canvas.height - b.radius } := by
      simp only [Ball.update, Ball.integrate, Ball.bounceSides, Ball.bounceBottom,
        Ball.bounceTop, hs, hbot, htop, if_true, if_false]
    rw [hupd]
    exact ⟨rfl, rfl⟩
  · intro hx hy hr hdx hW
    have hs : b.x + b.dx - b.radius ≤ 0 ∨ b.x + b.dx + b.radius ≥ canvas.width := by
      left; rw [hx, hdx, hr]; norm_num
    have hsx : (b.integrate.bounceSides canvas).x = 20 ∧
        (b.integrate.bounceSides canvas).dx = -(-3) * b.bounce := by
      simp only [Ball.integrate, Ball.bounceSides, hs, if_true, hx, hdx, hr, hW]
      norm_num
    have hx2 : (b.update canvas).x = (b.integrate.bounceSides canvas).x := by
      unfold Ball.update
      rw [Ball.bounceTop_x, Ball.bounceBottom_x]
    have hdx2 : (b.update canvas).dx = (b.integrate.bounceSides canvas).dx := by
      unfold Ball.update Ball.bounceTop Ball.bounceBottom
      split <;> split <;> rfl
    rw [hx2, hdx2]
    exact hsx

/-- C2 witness: the ball at `(5, 50)` with radius 20 and velocity `(-3, 7)` in
the canvas of 640 by 480 (left wall only); a ball that reaches the ceiling only
and one that reaches the floor only. -/
theorem update_wall_bounce_witness :
    (Ball.moving (5 : ℚ) 50 20 (-3) 7).bounce = 0.8 ∧
    ((Ball.moving (5 : ℚ) 50 20 (-3) 7).update canvas640).x = 20 ∧
    ((Ball.moving (5 : ℚ) 50 20 (-3) 7).update canvas640).dx = -(-3) * 0.8 ∧
    ((Ball.moving (5 : ℚ) 50 20 (-3) 7).update canvas640).dy = 7 ∧
    ((Ball.moving (100 : ℚ) 25 20 3 (-7)).update canvas640).dy = -(-7) * 0.8 ∧
    ((Ball.moving (100 : ℚ) 25 20 3 (-7)).update canvas640).dx = 3 ∧
    ((Ball.moving (100 : ℚ) 455 20 3 7).update canvas640).dy = -7 * 0.8 ∧
    ((Ball.moving (100 : ℚ) 455 20 3 7).update canvas640).dx = 3 :=
  have h1 := (update_wall_bounce (Ball.moving (5 : ℚ) 50 20 (-3) 7) canvas640 rfl).2.2.2
    rfl rfl rfl rfl rfl
  have h2 := (update_wall_bounce (Ball.moving (5 : ℚ) 50 20 (-3) 7) canvas640 rfl).1
    (by norm_num [Ball.moving, canvas640]) (by norm_num [Ball.moving, canvas640])
    (by norm_num [Ball.moving, canvas640])
  have h3 := (update_wall_bounce (Ball.moving (100 : ℚ) 25 20 3 (-7)) canvas640 rfl).2.1
    (by norm_num [Ball.moving, canvas640]) (by norm_num [Ball.moving, canvas640])
    (by norm_num [Ball.moving, canvas640])
  have h4 := (update_wall_bounce (Ball.moving (100 : ℚ) 455 20 3 7) canvas640 rfl).2.2.1
    (by norm_num [Ball.moving, canvas640]) (by norm_num [Ball.moving, canvas640])
    (by norm_num [Ball.moving, canvas640]) (by norm_num [Ball.moving, canvas640])
  ⟨rfl, h1.1, h1.2, h2.2.2.1, h3.1, h3.2, h4.1, h4.2⟩

/-- C2 counterexample: in a canvas of 640 by 40 a ball of radius 20 at `y = 25`
with `dy = 5` reaches `y = 30`.  This position triggers the floor check only
(`30 + 20 ≥ 40`, `30 - 20 > 0`, `x = 100`), but the floor check puts the ball at
`y = 20`, where the ceiling check triggers as well: `dy` ends as `3.2`, not as
`-5 * 0.8`. -/
theorem update_floor_bounce_twice :
    ¬ ((Ball.moving (100 : ℚ) 25 20 0 5).x + (Ball.moving (100 : ℚ) 25 20 0 5).dx
          - (Ball.moving (100 : ℚ) 25 20 0 5).radius ≤ 0 ∨
        (Ball.moving (100 : ℚ) 25 20 0 5).x + (Ball.moving (100 : ℚ) 25 20 0 5).dx
          + (Ball.moving (100 : ℚ) 25 20 0 5).radius ≥ 640) ∧
    (Ball.moving (100 : ℚ) 25 20 0 5).y + (Ball.moving (100 : ℚ) 25 20 0 5).dy
      + (Ball.moving (100 : ℚ) 25 20 0 5).radius ≥ 40 ∧
    ¬ ((Ball.moving (100 : ℚ) 25 20 0 5).y + (Ball.moving (100 : ℚ) 25 20 0 5).dy
      - (Ball.moving (100 : ℚ) 25 20 0 5).radius ≤ 0) ∧
    (Ball.moving (100 : ℚ) 25 20 0 5).update { width := 640, height := 40 }
      = Ball.moving 100 20 20 0 3.2 ∧
    ((Ball.moving (100 : ℚ) 25 20 0 5).update { width := 640, height := 40 }).dy
      ≠ -(Ball.moving (100 : ℚ) 25 20 0 5).dy * 0.8 := by
  have hupd : (Ball.moving (100 : ℚ) 25 20 0 5).update { width := 640, height := 40 }
      = Ball.moving 100 20 20 0 3.2 := by
    norm_num [Ball.update, Ball.integrate, Ball.bounceSides, Ball.bounceBottom,
      Ball.bounceTop, Ball.moving]
  rw [hupd]
  norm_num [Ball.moving]

/-- C9: when every pair of the store has its centers at least `r_i + r_j` apart
(touching pairs included), `checkCollisions` returns the store as it is; and any
iteration of the loop body on a pair that is at least `r_i + r_j` apart when it
is examined returns the store as it is. -/
theorem checkCollisions_apart (M : JSMath α) (balls : List (Ball α)) :
    ((∀ (i j : Nat) (b1 b2 : Ball α), i < j → balls[i]? = some b1 → balls[j]? = some b2 →
        b1.radius + b2.radius ≤ centerDistance M b1 b2) →
      checkCollisions M balls = balls) ∧
    (∀ (i j : Nat) (b1 b2 : Ball α), i < j → balls[i]? = some b1 → balls[j]? = some b2 →
      b1.radius + b2.radius ≤ centerDistance M b1 b2 →
      collideAt M balls i j = balls ∧ resolvePair M b1 b2 = (b1, b2)) := by
  constructor
  · intro h
    exact checkCollisions_of_no_contact M balls
      (fun i j b1 b2 hij h1 h2 => not_lt.2 (h i j b1 b2 hij h1 h2))
  · intro i j b1 b2 _ h1 h2 hd
    constructor
    · apply collideAt_of_not_colliding
      intro c1 c2 g1 g2
      rw [h1] at g1; rw [h2] at g2
      cases g1; cases g2
      exact not_lt.2 hd
    · exact resolvePair_of_not_colliding M b1 b2 (not_lt.2 hd)

/-- C9 witness: two balls of radius 20 that touch exactly, at `(100, 100)` and
`(140, 100)`, moving towards each other. -/
theorem checkCollisions_apart_witness :
    (∀ (i j : Nat) (b1 b2 : Ball ℝ), i < j →
      [Ball.moving (100 : ℝ) 100 20 5 0, Ball.moving 140 100 20 (-5) 0][i]? = some b1 →
      [Ball.moving (100 : ℝ) 100 20 5 0, Ball.moving 140 100 20 (-5) 0][j]? = some b2 →
      b1.radius + b2.radius ≤ centerDistance realMath b1 b2) ∧
    checkCollisions realMath [Ball.moving (100 : ℝ) 100 20 5 0, Ball.moving 140 100 20 (-5) 0]
      = [Ball.moving (100 : ℝ) 100 20 5 0, Ball.moving 140 100 20 (-5) 0] :=
  have hall : ∀ (i j : Nat) (b1 b2 : Ball ℝ), i < j →
      [Ball.moving (100 : ℝ) 100 20 5 0, Ball.moving 140 100 20 (-5) 0][i]? = some b1 →
      [Ball.moving (100 : ℝ) 100 20 5 0, Ball.moving 140 100 20 (-5) 0][j]? = some b2 →
      b1.radius + b2.radius ≤ centerDistance realMath b1 b2 := by
    apply pairs_of_two (fun b1 b2 : Ball ℝ => b1.radius + b2.radius ≤ centerDistance realMath b1 b2)
    rw [realMath_exact.centerDistance_eq _ _ 40 (by norm_num) (by norm_num [Ball.moving])]
    norm_num [Ball.moving]
  ⟨hall, (checkCollisions_apart realMath _).1 hall⟩

/-- C10: when the integrated position is strictly inside all four walls,
`update` moves the ball to `(x + dx, y + dy)` and changes nothing else: `dx` and
`dy` are as before, whatever the `gravity` and `friction` fields hold. -/
theorem update_interior (b : Ball α) (canvas : Canvas α)
    (hx1 : b.radius < b.x + b.dx) (hx2 : b.x + b.dx < canvas.width - b.radius)
    (hy1 : b.radius < b.y + b.dy) (hy2 : b.y + b.dy < canvas.height - b.radius) :
    b.update canvas = { b with x := b.x + b.dx, y := b.y + b.dy } ∧
    (b.update canvas).x = b.x + b.dx ∧ (b.update canvas).y = b.y + b.dy ∧
    (b.update canvas).dx = b.dx ∧ (b.update canvas).dy = b.dy := by
  have hs : ¬ (b.x + b.dx - b.radius ≤ 0 ∨ b.x + b.dx + b.radius ≥ canvas.width) := by
    push_neg; constructor <;> linarith
  have hbot : ¬ (b.y + b.dy + b.radius ≥ canvas.height) := by
    push_neg; linarith
  have htop : ¬ (b.y + b.dy - b.radius ≤ 0) := by
    push_neg; linarith
  have hupd : b.update canvas = { b with x := b.x + b.dx, y := b.y + b.dy } := by
    simp only [Ball.update, Ball.integrate, Ball.bounceSides, Ball.bounceBottom,
      Ball.bounceTop, hs, hbot, htop, if_false]
  rw [hupd]
  exact ⟨rfl, rfl, rfl, rfl, rfl⟩

/-- C10 witness: a ball built by the constructor (gravity 0.2, friction 0.99)
at `(100, 100)` with velocity `(5, -3)` in the canvas of 640 by 480. -/
theorem update_interior_witness :
    (Ball.moving (100 : ℚ) 100 20 5 (-3)).gravity = 0.2 ∧
    (Ball.moving (100 : ℚ) 100 20 5 (-3)).friction = 0.99 ∧
    (Ball.moving (100 : ℚ) 100 20 5 (-3)).update canvas640
      = Ball.moving 105 97 20 5 (-3) := by
  refine ⟨rfl, rfl, ?_⟩
  rw [(update_interior (Ball.moving (100 : ℚ) 100 20 5 (-3)) canvas640
    (by norm_num [Ball.moving]) (by norm_num [Ball.moving, canvas640])
    (by norm_num [Ball.moving]) (by norm_num [Ball.moving, canvas640])).1]
  norm_num [Ball.moving]

/-- C8, as the code has it: after the loop of `resetBalls` the store has as many
balls as before and the ball at index `i` has `x = 100 + 100 * i`,
`y = 100 + 50 * (i mod 3)` and the radius and the colour it had; a store of
three balls ends at `(100, 100)`, `(200, 150)`, `(300, 200)`. -/
theorem resetLoop_layout (rand : Nat → α × α) (balls : List (Ball α)) :
    (resetLoop rand balls).length = balls.length ∧
    (∀ (i : Nat) (b : Ball α), balls[i]? = some b →
      ∃ c : Ball α, (resetLoop rand balls)[i]? = some c ∧
        c.x = 100 + 100 * (i : α) ∧ c.y = 100 + 50 * ((i % 3 : Nat) : α) ∧
        c.radius = b.radius ∧ c.color = b.color) ∧
    (∀ b0 b1 b2 : Ball α,
      (resetLoop rand [b0, b1, b2]).map (fun b => (b.x, b.y))
        = [(100, 100), (200, 150), (300, 200)] ∧
      (resetLoop rand [b0, b1, b2]).map (fun b => (b.radius, b.color))
        = [b0, b1, b2].map (fun b => (b.radius, b.color))) := by
  refine ⟨resetFrom_length rand balls 0, ?_, ?_⟩
  · intro i b hb
    refine ⟨resetBall b i (rand i).1 (rand i).2, ?_, ?_, ?_, rfl, rfl⟩
    · unfold resetLoop
      rw [resetFrom_getElem?, hb, Nat.zero_add]
      rfl
    · simp only [resetBall]; ring
    · simp only [resetBall]; ring
  · intro b0 b1 b2
    constructor
    · norm_num [resetLoop, resetFrom, resetBall]
    · simp [resetLoop, resetFrom, resetBall]

/-- C8 witness: the ball at index 4 of the seeded store, which starts at
`(500, 250)`, is put at `(500, 150)` and keeps its radius 28 and its colour. -/
theorem resetLoop_layout_witness :
    (initialBalls (fun _ => ((0 : ℚ), 0)))[4]? = some (Ball.new 500 250 28 "#0066FF" 0 0) ∧
    ∃ c : Ball ℚ, (resetLoop (fun _ => ((1 / 2 : ℚ), 1 / 2))
        (initialBalls (fun _ => ((0 : ℚ), 0))))[4]? = some c ∧
      c.x = 500 ∧ c.y = 150 ∧ c.radius = 28 ∧ c.color = "#0066FF" := by
  refine ⟨rfl, ?_⟩
  obtain ⟨c, hc, hx, hy, hr, hcol⟩ :=
    (resetLoop_layout (fun _ => ((1 / 2 : ℚ), 1 / 2)) (initialBalls (fun _ => ((0 : ℚ), 0)))).2.1
      4 (Ball.new 500 250 28 "#0066FF" 0 0) rfl
  refine ⟨c, hc, ?_, ?_, hr, hcol⟩
  · rw [hx]; norm_num
  · rw [hy]; norm_num

/-- C8 counterexample: the third ball of a store of three is put at
`(300, 200)`, not at `(300, 100)`. -/
theorem resetLoop_three_not_as_claimed :
    (resetLoop (fun _ => ((1 / 2 : ℚ), 1 / 2))
        [Ball.moving 5 50 20 (-3) 7, Ball.moving 60 70 25 1 1, Ball.moving 9 9 30 0 2]).map
        (fun b => (b.x, b.y))
      = [(100, 100), (200, 150), (300, 200)] ∧
    (resetLoop (fun _ => ((1 / 2 : ℚ), 1 / 2))
        [Ball.moving 5 50 20 (-3) 7, Ball.moving 60 70 25 1 1, Ball.moving 9 9 30 0 2]).map
        (fun b => (b.x, b.y))
      ≠ [(100, 100), (200, 150), (300, 100)] := by
  have h : (resetLoop (fun _ => ((1 / 2 : ℚ), 1 / 2))
        [Ball.moving 5 50 20 (-3) 7, Ball.moving 60 70 25 1 1, Ball.moving 9 9 30 0 2]).map
        (fun b => (b.x, b.y))
      = [(100, 100), (200, 150), (300, 200)] := by
    norm_num [resetLoop, resetFrom, resetBall]
  refine ⟨h, ?_⟩
  rw [h]
  norm_num

/-- C6: starting from a store of at most 15 balls, a sequence of click-adds
(push, then the cap check) leaves at most 15 balls, namely the last
`min 15 total` balls of the initial balls followed by the added ones, in that
order; the seeded store has 8 balls, so this holds from the start of the script. -/
theorem addBall_sequence_keeps_last (rand : Nat → α × α) (init adds : List (Ball α))
    (h : init.length ≤ 15) :
    (adds.foldl addBall init).length ≤ 15 ∧
    (adds.foldl addBall init).length = min 15 (init ++ adds).length ∧
    adds.foldl addBall init
      = (init ++ adds).drop ((init ++ adds).length - min 15 (init ++ adds).length) ∧
    (initialBalls rand).length = 8 ∧
    adds.foldl addBall (initialBalls rand)
      = (initialBalls rand ++ adds).drop
          ((initialBalls rand ++ adds).length - min 15 (initialBalls rand ++ adds).length) := by
  have key : ∀ l : List (Ball α), l.length ≤ 15 →
      (adds.foldl addBall l).length = min 15 (l ++ adds).length ∧
      adds.foldl addBall l
        = (l ++ adds).drop ((l ++ adds).length - min 15 (l ++ adds).length) := by
    intro l hl
    have e := foldl_addBall_eq_drop adds l hl
    have hm : (l ++ adds).length - min 15 (l ++ adds).length = (l ++ adds).length - 15 := by
      omega
    rw [hm]
    refine ⟨?_, e⟩
    rw [e, List.length_drop]
    omega
  have h8 : (initialBalls rand).length = 8 := rfl
  refine ⟨?_, (key init h).1, (key init h).2, h8, (key _ (by rw [h8]; decide)).2⟩
  rw [(key init h).1]
  exact min_le_left _ _

/-- C6 witness: nine clicks on the seeded store; the two oldest seeded balls
(at `x = 100` and `x = 200`) are gone and the order of the others is kept. -/
theorem addBall_sequence_keeps_last_witness :
    (initialBalls (fun _ => ((0 : ℚ), 0))).length ≤ 15 ∧
    (([Ball.moving (1 : ℚ) 0 20 0 0, Ball.moving 2 0 20 0 0, Ball.moving 3 0 20 0 0,
        Ball.moving 4 0 20 0 0, Ball.moving 5 0 20 0 0, Ball.moving 6 0 20 0 0,
        Ball.moving 7 0 20 0 0, Ball.moving 8 0 20 0 0, Ball.moving 9 0 20 0 0].foldl
        addBall (initialBalls (fun _ => ((0 : ℚ), 0)))).map (fun b => b.x))
      = [300, 400, 500, 150, 250, 600, 1, 2, 3, 4, 5, 6, 7, 8, 9] := by
  refine ⟨by decide, ?_⟩
  rw [(addBall_sequence_keeps_last (fun _ => ((0 : ℚ), 0))
    (initialBalls (fun _ => ((0 : ℚ), 0))) _ (by decide)).2.2.1]
  rfl

end Claims

section StoreClaims

variable {α : Type}

/-- C7, as the code has it: one add (push, then the cap check of the click
handler) on a store of at most 15 balls leaves at most 15 balls.  The cap check
evicts once: below 15 balls nothing is evicted, and from 15 balls on exactly the
oldest ball is evicted, so that the size is what it was before the add. -/
theorem addBall_evicts_once (balls : List (Ball α)) (newBall : Ball α) :
    (balls.length ≤ 15 → (addBall balls newBall).length ≤ 15) ∧
    (balls.length < 15 → addBall balls newBall = balls ++ [newBall]) ∧
    (15 ≤ balls.length →
      addBall balls newBall = balls.tail ++ [newBall] ∧
      (addBall balls newBall).length = balls.length) := by
  refine ⟨addBall_length_le balls newBall, addBall_of_lt balls newBall, ?_⟩
  intro h
  refine ⟨addBall_of_ge balls newBall h, ?_⟩
  rw [addBall_of_ge balls newBall h, List.length_append, List.length_singleton,
    List.length_tail]
  omega

/-- C7 witness: a store of 15 balls still has 15 balls after an add. -/
theorem addBall_evicts_once_witness :
    (List.replicate 15 (Ball.moving (0 : ℚ) 0 20 0 0)).length ≤ 15 ∧
    (addBall (List.replicate 15 (Ball.moving (0 : ℚ) 0 20 0 0))
      (Ball.moving 1 1 20 0 0)).length ≤ 15 :=
  ⟨by simp, (addBall_evicts_once (List.replicate 15 (Ball.moving (0 : ℚ) 0 20 0 0))
    (Ball.moving 1 1 20 0 0)).1 (by simp)⟩

/-- C7 counterexample: a store of 16 balls has 16 balls after an add. -/
theorem addBall_above_cap :
    (addBall (List.replicate 16 (Ball.moving (0 : ℚ) 0 20 0 0))
      (Ball.moving 1 1 20 0 0)).length = 16 ∧
    ¬ (addBall (List.replicate 16 (Ball.moving (0 : ℚ) 0 20 0 0))
      (Ball.moving 1 1 20 0 0)).length ≤ 15 := by
  have h : (addBall (List.replicate 16 (Ball.moving (0 : ℚ) 0 20 0 0))
      (Ball.moving 1 1 20 0 0)).length = 16 := by
    rw [addBall_of_ge _ _ (by simp)]
    simp
  rw [h]
  exact ⟨rfl, by decide⟩

end StoreClaims

/-! ## Quantities kept by the operations on the store -/

section KeptByAdd

variable {α : Type}

/-- The radii after the end of the click handler: the radius of the new ball is
appended and the first radius leaves when there were 15 balls or more. -/
theorem addBall_map_radius (balls : List (Ball α)) (newBall : Ball α) :
    (addBall balls newBall).map Ball.radius
      = (balls.map Ball.radius ++ [newBall.radius]).drop
          (if balls.length + 1 > 15 then 1 else 0) := by
  unfold addBall
  simp only [List.length_append, List.length_singleton]
  split
  · simp [List.map_tail]
  · simp

theorem mem_addBall (balls : List (Ball α)) (newBall b : Ball α)
    (h : b ∈ addBall balls newBall) : b ∈ balls ∨ b = newBall := by
  unfold addBall at h
  simp only at h
  split at h
  · have := List.mem_of_mem_tail h
    simpa using this
  · simpa using h

end KeptByAdd

section Kept

variable {α : Type} [LinearOrderedField α]

/-- A property kept by the body of a loop is kept by the loop. -/
theorem foldl_invariant {σ ι : Type} (P : σ → Prop) (f : σ → ι → σ) (l : List ι)
    (h : ∀ s, ∀ a ∈ l, P s → P (f s a)) (s : σ) (hs : P s) : P (l.foldl f s) := by
  induction l generalizing s with
  | nil => exact hs
  | cons a l ih =>
    rw [List.foldl_cons]
    exact ih (fun t c hc => h t c (List.mem_cons_of_mem a hc)) _
      (h s a (List.mem_cons_self a l) hs)

/-- Writing at an index an element with the same image leaves the list of the
images as it is. -/
theorem map_set_of_eq {β γ : Type} (f : β → γ) (l : List β) (i : Nat) (a b : β)
    (h : l[i]? = some b) (hf : f a = f b) : (l.set i a).map f = l.map f := by
  induction l generalizing i with
  | nil => rfl
  | cons x xs ih =>
    cases i with
    | zero =>
      simp only [List.getElem?_cons_zero, Option.some.injEq] at h
      simp only [List.set_cons_zero, List.map_cons, hf, h]
    | succ k =>
      simp only [List.getElem?_cons_succ] at h
      simp only [List.set_cons_succ, List.map_cons, ih k h]

/-- The sum of the images after writing at one index. -/
theorem sum_map_set {β : Type} (f : β → α) (l : List β) (i : Nat) (a b : β)
    (h : l[i]? = some b) : ((l.set i a).map f).sum + f b = (l.map f).sum + f a := by
  induction l generalizing i with
  | nil => simp at h
  | cons x xs ih =>
    cases i with
    | zero =>
      simp only [List.getElem?_cons_zero, Option.some.injEq] at h
      simp only [List.set_cons_zero, List.map_cons, List.sum_cons, h]
      ring
    | succ k =>
      simp only [List.getElem?_cons_succ] at h
      simp only [List.set_cons_succ, List.map_cons, List.sum_cons]
      linear_combination ih k h

theorem resolvePair_radius (M : JSMath α) (b1 b2 : Ball α) :
    (resolvePair M b1 b2).1.radius = b1.radius ∧
      (resolvePair M b1 b2).2.radius = b2.radius := by
  unfold resolvePair
  simp only
  split <;> exact ⟨rfl, rfl⟩

/-- The loop body of `checkCollisions` keeps the radius at every index. -/
theorem collideAt_map_radius (M : JSMath α) (balls : List (Ball α)) (i j : Nat) :
    (collideAt M balls i j).map Ball.radius = balls.map Ball.radius := by
  unfold collideAt
  split
  · rename_i b1 b2 h1 h2
    by_cases hij : i = j
    · subst hij
      rw [List.set_set]
      exact map_set_of_eq Ball.radius balls i _ b2 h2 (resolvePair_radius M b1 b2).2
    · have h2' : (balls.set i (resolvePair M b1 b2).1)[j]? = some b2 := by
        rw [List.getElem?_set_ne hij]; exact h2
      rw [map_set_of_eq Ball.radius _ j _ b2 h2' (resolvePair_radius M b1 b2).2,
        map_set_of_eq Ball.radius balls i _ b1 h1 (resolvePair_radius M b1 b2).1]
  · rfl

theorem collideAt_length (M : JSMath α) (balls : List (Ball α)) (i j : Nat) :
    (collideAt M balls i j).length = balls.length := by
  have h := congrArg List.length (collideAt_map_radius M balls i j)
  simpa using h

/-- The function `checkCollisions` keeps the radius at every index. -/
theorem checkCollisions_map_radius (M : JSMath α) (balls : List (Ball α)) :
    (checkCollisions M balls).map Ball.radius = balls.map Ball.radius := by
  unfold checkCollisions
  apply foldl_invariant (fun bs : List (Ball α) => bs.map Ball.radius = balls.map Ball.radius)
  · intro bs i _ hbs
    unfold collideRow
    apply foldl_invariant
      (fun cs : List (Ball α) => cs.map Ball.radius = balls.map Ball.radius)
    · intro cs j _ hcs
      rw [collideAt_map_radius, hcs]
    · exact hbs
  · rfl

/-- A simulation step keeps the radius at every index. -/
theorem simulationStep_map_radius (M : JSMath α) (balls : List (Ball α))
    (canvas : Canvas α) :
    (simulationStep M balls canvas).map Ball.radius = balls.map Ball.radius := by
  unfold simulationStep
  rw [checkCollisions_map_radius, List.map_map]
  apply List.map_congr_left
  intro b _
  exact Ball.update_radius b canvas

theorem resetFrom_map_radius (rand : Nat → α × α) (balls : List (Ball α)) (start : Nat) :
    (resetFrom rand start balls).map Ball.radius = balls.map Ball.radius := by
  induction balls generalizing start with
  | nil => rfl
  | cons b rest ih => simp [resetFrom, resetBall, ih]

/-- Positive radii stay positive when the radius at every index is kept. -/
theorem radius_pos_of_map_eq (l l2 : List (Ball α))
    (h : l2.map Ball.radius = l.map Ball.radius) (hl : ∀ b ∈ l, 0 < b.radius) :
    ∀ b ∈ l2, 0 < b.radius := by
  intro b hb
  have hm : b.radius ∈ l.map Ball.radius := by
    rw [← h]; exact List.mem_map_of_mem Ball.radius hb
  obtain ⟨c, hc, hcr⟩ := List.mem_map.1 hm
  rw [← hcr]; exact hl c hc

theorem initialBalls_radius_pos (rand : Nat → α × α) :
    ∀ b ∈ initialBalls rand, 0 < b.radius := by
  intro b hb
  simp only [initialBalls, List.mem_cons, List.mem_singleton, List.not_mem_nil,
    or_false] at hb
  rcases hb with rfl | rfl | rfl | rfl | rfl | rfl | rfl | rfl <;>
    norm_num [Ball.new]

/-- In the exact model, the loop body of `checkCollisions` keeps the sum of the
squared speeds of the store. -/
theorem JSMath.Exact.collideAt_totalSpeedSq {M : JSMath α} (hM : M.Exact)
    (balls : List (Ball α)) (i j : Nat) (hij : i ≠ j) :
    totalSpeedSq (collideAt M balls i j) = totalSpeedSq balls := by
  unfold collideAt
  split
  · rename_i b1 b2 h1 h2
    have h2' : (balls.set i (resolvePair M b1 b2).1)[j]? = some b2 := by
      rw [List.getElem?_set_ne hij]; exact h2
    have e1 := sum_map_set Ball.speedSq balls i (resolvePair M b1 b2).1 b1 h1
    have e2 := sum_map_set Ball.speedSq (balls.set i (resolvePair M b1 b2).1) j
      (resolvePair M b1 b2).2 b2 h2'
    have e3 := hM.resolvePair_energy b1 b2
    unfold totalSpeedSq
    unfold Ball.speedSq at e1 e2 ⊢
    linarith
  · rfl

/-- In the exact model, `checkCollisions` keeps the sum of the squared speeds of
the store. -/
theorem JSMath.Exact.checkCollisions_totalSpeedSq {M : JSMath α} (hM : M.Exact)
    (balls : List (Ball α)) :
    totalSpeedSq (checkCollisions M balls) = totalSpeedSq balls := by
  unfold checkCollisions
  apply foldl_invariant (fun bs : List (Ball α) => totalSpeedSq bs = totalSpeedSq balls)
  · intro bs i _ hbs
    unfold collideRow
    apply foldl_invariant (fun cs : List (Ball α) => totalSpeedSq cs = totalSpeedSq balls)
    · intro cs j hj hcs
      rw [List.mem_range'_1] at hj
      rw [hM.collideAt_totalSpeedSq cs i j (by omega), hcs]
    · exact hbs
  · rfl

theorem Ball.bounceSides_slower (b : Ball α) (canvas : Canvas α) (hb : b.bounce = 0.8) :
    (b.bounceSides canvas).bounce = 0.8 ∧ (b.bounceSides canvas).dx ^ 2 ≤ b.dx ^ 2 ∧
      (b.bounceSides canvas).dy = b.dy := by
  unfold Ball.bounceSides
  split
  · refine ⟨hb, ?_, rfl⟩
    simp only [hb]
    nlinarith [sq_nonneg b.dx]
  · exact ⟨hb, le_rfl, rfl⟩

theorem Ball.bounceBottom_slower (b : Ball α) (canvas : Canvas α) (hb : b.bounce = 0.8) :
    (b.bounceBottom canvas).bounce = 0.8 ∧ (b.bounceBottom canvas).dy ^ 2 ≤ b.dy ^ 2 ∧
      (b.bounceBottom canvas).dx = b.dx := by
  unfold Ball.bounceBottom
  split
  · refine ⟨hb, ?_, rfl⟩
    simp only [hb]
    nlinarith [sq_nonneg b.dy]
  · exact ⟨hb, le_rfl, rfl⟩

theorem Ball.bounceTop_slower (b : Ball α) (hb : b.bounce = 0.8) :
    b.bounceTop.bounce = 0.8 ∧ b.bounceTop.dy ^ 2 ≤ b.dy ^ 2 ∧ b.bounceTop.dx = b.dx := by
  unfold Ball.bounceTop
  split
  · refine ⟨hb, ?_, rfl⟩
    simp only [hb]
    nlinarith [sq_nonneg b.dy]
  · exact ⟨hb, le_rfl, rfl⟩

/-- A ball is not faster after `update` than before. -/
theorem Ball.update_speedSq_le (b : Ball α) (canvas : Canvas α) (hb : b.bounce = 0.8) :
    (b.update canvas).speedSq ≤ b.speedSq := by
  have h0 : b.integrate.bounce = 0.8 := hb
  obtain ⟨h1, h1x, h1y⟩ := Ball.bounceSides_slower b.integrate canvas h0
  obtain ⟨h2, h2y, h2x⟩ := Ball.bounceBottom_slower (b.integrate.bounceSides canvas) canvas h1
  obtain ⟨_, h3y, h3x⟩ :=
    Ball.bounceTop_slower ((b.integrate.bounceSides canvas).bounceBottom canvas) h2
  have hx0 : b.integrate.dx = b.dx := rfl
  have hy0 : b.integrate.dy = b.dy := rfl
  unfold Ball.speedSq Ball.update
  rw [h3x, h2x]
  rw [h1y, hy0] at h2y
  rw [hx0] at h1x
  linarith

/-- The updates of a frame do not increase the sum of the squared speeds. -/
theorem totalSpeedSq_map_update_le (balls : List (Ball α)) (canvas : Canvas α)
    (hb : ∀ b ∈ balls, b.bounce = 0.8) :
    totalSpeedSq (balls.map (fun ball => ball.update canvas)) ≤ totalSpeedSq balls := by
  unfold totalSpeedSq
  rw [List.map_map]
  apply List.sum_le_sum
  intro b hbm
  exact Ball.update_speedSq_le b canvas (hb b hbm)

/-- In the exact model, resolution keeps the sum of the two velocities and the
sum of the two positions. -/
theorem JSMath.Exact.resolvePair_momentum {M : JSMath α} (hM : M.Exact) (b1 b2 : Ball α) :
    (resolvePair M b1 b2).1.dx + (resolvePair M b1 b2).2.dx = b1.dx + b2.dx ∧
    (resolvePair M b1 b2).1.dy + (resolvePair M b1 b2).2.dy = b1.dy + b2.dy ∧
    (resolvePair M b1 b2).1.x + (resolvePair M b1 b2).2.x = b1.x + b2.x ∧
    (resolvePair M b1 b2).1.y + (resolvePair M b1 b2).2.y = b1.y + b2.y := by
  by_cases h : colliding M b1 b2
  · rw [resolvePair_of_colliding M b1 b2 h]
    have hcs := hM.cos_sq_add_sin_sq (M.atan2 (b2.y - b1.y) (b2.x - b1.x))
    simp only
    generalize M.cos (M.atan2 (b2.y - b1.y) (b2.x - b1.x)) = c at hcs ⊢
    generalize M.sin (M.atan2 (b2.y - b1.y) (b2.x - b1.x)) = s at hcs ⊢
    refine ⟨?_, ?_, ?_, ?_⟩
    · linear_combination (b1.dx + b2.dx) * hcs
    · linear_combination (b1.dy + b2.dy) * hcs
    · ring
    · ring
  · rw [resolvePair_of_not_colliding M b1 b2 h]
    exact ⟨rfl, rfl, rfl, rfl⟩

theorem centerDistance_comm (M : JSMath α) (b1 b2 : Ball α) :
    centerDistance M b2 b1 = centerDistance M b1 b2 := by
  unfold centerDistance
  congr 1
  ring

/-- In the exact model, resolving a flagged pair with distinct centers in the
other order gives the same two balls. -/
theorem JSMath.Exact.resolvePair_swap {M : JSMath α} (hM : M.Exact) (a b : Ball α)
    (h : colliding M a b) (hne : a.x ≠ b.x ∨ a.y ≠ b.y) :
    resolvePair M b a = ((resolvePair M a b).2, (resolvePair M a b).1) := by
  have hd := centerDistance_comm M a b
  have h' : colliding M b a := by
    unfold colliding at h ⊢
    rw [hd, add_comm]; exact h
  have hne' : b.x ≠ a.x ∨ b.y ≠ a.y := by
    rcases hne with hx | hy
    · exact Or.inl (Ne.symm hx)
    · exact Or.inr (Ne.symm hy)
  obtain ⟨hd0, hc, hs⟩ := hM.cos_sin_angle a b hne
  obtain ⟨_, hc', hs'⟩ := hM.cos_sin_angle b a hne'
  have ec : M.cos (M.atan2 (a.y - b.y) (a.x - b.x))
      = -M.cos (M.atan2 (b.y - a.y) (b.x - a.x)) := by
    rw [hc', hc, hd]; field_simp
  have es : M.sin (M.atan2 (a.y - b.y) (a.x - b.x))
      = -M.sin (M.atan2 (b.y - a.y) (b.x - a.x)) := by
    rw [hs', hs, hd]; field_simp
  rw [resolvePair_of_colliding M b a h', resolvePair_of_colliding M a b h, ec, es, hd]
  simp only [Prod.mk.injEq, Ball.mk.injEq, true_and, and_true]
  generalize M.cos (M.atan2 (b.y - a.y) (b.x - a.x)) = c
  generalize M.sin (M.atan2 (b.y - a.y) (b.x - a.x)) = s
  generalize centerDistance M a b = d
  refine ⟨⟨?_, ?_, ?_, ?_⟩, ?_, ?_, ?_, ?_⟩ <;> ring

end Kept

/-! ## The state of the script -/

section Script

variable {α : Type} [LinearOrderedField α]

/-- The balls after `animate()`: the same, or one simulation step later. -/
theorem animate_balls (M : JSMath α) (canvas : Canvas α) (s : State α) :
    (animate M canvas s).balls = s.balls ∨
      (animate M canvas s).balls = simulationStep M s.balls canvas := by
  unfold animate
  split
  · exact Or.inl rfl
  · exact Or.inr rfl

theorem animate_radius_pos (M : JSMath α) (canvas : Canvas α) (s : State α)
    (h : ∀ b ∈ s.balls, 0 < b.radius) : ∀ b ∈ (animate M canvas s).balls, 0 < b.radius := by
  rcases animate_balls M canvas s with e | e
  · rw [e]; exact h
  · rw [e]
    exact radius_pos_of_map_eq _ _ (simulationStep_map_radius M s.balls canvas) h

theorem onClick_radius_pos [FloorRing α] (balls : List (Ball α)) (x y r0 r1 r2 r3 : α)
    (hr : isRandom r1) (h : ∀ b ∈ balls, 0 < b.radius) :
    ∀ b ∈ onClick balls x y r0 r1 r2 r3, 0 < b.radius := by
  intro b hb
  unfold onClick at hb
  rcases mem_addBall _ _ b hb with hmem | rfl
  · exact h b hmem
  · have := hr.1
    simp only [Ball.new]
    nlinarith

theorem resetBalls_radius_pos (M : JSMath α) (canvas : Canvas α) (rand : Nat → α × α)
    (s : State α) (h : ∀ b ∈ s.balls, 0 < b.radius) :
    ∀ b ∈ (resetBalls M canvas rand s).balls, 0 < b.radius := by
  unfold resetBalls
  apply animate_radius_pos
  have hs1 : (match s.animationId with
      | some h => if h ≠ 0 then cancelAnimationFrame h s else s
      | none => s).balls = s.balls := by
    split
    · split <;> rfl
    · rfl
  simp only [hs1]
  exact radius_pos_of_map_eq _ _ (resetFrom_map_radius rand s.balls 0) h

/-- Every event keeps the radii of the store positive. -/
theorem Event.apply_keeps_radius_pos [FloorRing α] (M : JSMath α) (canvas : Canvas α)
    (s : State α) (e : Event α) (he : e.valid) (h : ∀ b ∈ s.balls, 0 < b.radius) :
    ∀ b ∈ (e.apply M canvas s).balls, 0 < b.radius := by
  cases e with
  | frame k =>
    simp only [Event.apply, runFrame]
    split
    · exact animate_radius_pos M canvas _ h
    · exact h
  | toggle =>
    simp only [Event.apply, toggleAnimation]
    split
    · exact animate_radius_pos M canvas _ h
    · exact h
  | reset rand => exact resetBalls_radius_pos M canvas rand s h
  | click x y r0 r1 r2 r3 =>
    exact onClick_radius_pos s.balls x y r0 r1 r2 r3 he.2.1 h

/-- Every store operation keeps the radii of the store positive. -/
theorem StoreOp.apply_store_radius_pos [FloorRing α] (M : JSMath α) (canvas : Canvas α)
    (balls : List (Ball α)) (op : StoreOp α) (hop : op.valid)
    (h : ∀ b ∈ balls, 0 < b.radius) : ∀ b ∈ op.apply M canvas balls, 0 < b.radius := by
  cases op with
  | step => exact radius_pos_of_map_eq _ _ (simulationStep_map_radius M balls canvas) h
  | reset rand => exact radius_pos_of_map_eq _ _ (resetFrom_map_radius rand balls 0) h
  | click x y r0 r1 r2 r3 => exact onClick_radius_pos balls x y r0 r1 r2 r3 hop.2.1 h

end Script

/-! ## The claims, continued -/

section MoreClaims

variable {α : Type} [LinearOrderedField α]

/-- C11: every ball of a store reached from the seeded store by simulation
steps, reset loops and click-adds has a positive radius, and so has every ball
of a state that the script reaches from its start by frames, key presses and
clicks; a simulation step and the reset loop keep the radius at every index,
and a click-add keeps the radii of the balls that stay, in their order. -/
theorem radius_positive_and_fixed [FloorRing α] (M : JSMath α) (canvas : Canvas α)
    (rand0 : Nat → α × α) (ops : List (StoreOp α)) (events : List (Event α))
    (hops : ∀ op ∈ ops, op.valid) (hev : ∀ e ∈ events, e.valid) :
    (∀ b ∈ ops.foldl (StoreOp.apply M canvas) (initialBalls rand0), 0 < b.radius) ∧
    (∀ b ∈ (run M canvas events (startup M canvas rand0)).balls, 0 < b.radius) ∧
    (∀ balls : List (Ball α),
      (simulationStep M balls canvas).map Ball.radius = balls.map Ball.radius) ∧
    (∀ (rand : Nat → α × α) (balls : List (Ball α)),
      (resetLoop rand balls).map Ball.radius = balls.map Ball.radius) ∧
    (∀ (balls : List (Ball α)) (x y r0 r1 r2 r3 : α),
      (onClick balls x y r0 r1 r2 r3).map Ball.radius
        = (balls.map Ball.radius ++ [15 + r1 * 15]).drop
            (if balls.length + 1 > 15 then 1 else 0)) := by
  refine ⟨?_, ?_, fun balls => simulationStep_map_radius M balls canvas,
    fun rand balls => resetFrom_map_radius rand balls 0, ?_⟩
  · apply foldl_invariant (fun bs : List (Ball α) => ∀ b ∈ bs, 0 < b.radius)
    · intro bs op hop hbs
      exact StoreOp.apply_store_radius_pos M canvas bs op (hops op hop) hbs
    · exact initialBalls_radius_pos rand0
  · unfold run
    apply foldl_invariant (fun s : State α => ∀ b ∈ s.balls, 0 < b.radius)
    · intro s e he hs
      exact Event.apply_keeps_radius_pos M canvas s e (hev e he) hs
    · unfold startup
      apply animate_radius_pos
      exact initialBalls_radius_pos rand0
  · intro balls x y r0 r1 r2 r3
    unfold onClick
    rw [addBall_map_radius]
    rfl

/-- C11 witness: a step, a click and a reset on the seeded store, and a pause, a
click and a reset of the running script. -/
theorem radius_positive_and_fixed_witness :
    (∀ op ∈ [StoreOp.step, StoreOp.click (10 : ℝ) 10 0.3 0.5 0.5 0.5,
        StoreOp.reset (fun _ => ((1 / 2 : ℝ), 1 / 2))], op.valid) ∧
    (∀ e ∈ [Event.toggle, Event.click (10 : ℝ) 10 0.3 0.5 0.5 0.5,
        Event.reset (fun _ => ((1 / 2 : ℝ), 1 / 2))], e.valid) ∧
    (∀ b ∈ [StoreOp.step, StoreOp.click (10 : ℝ) 10 0.3 0.5 0.5 0.5,
        StoreOp.reset (fun _ => ((1 / 2 : ℝ), 1 / 2))].foldl
        (StoreOp.apply realMath canvas640) (initialBalls (fun _ => ((1 / 2 : ℝ), 1 / 2))),
      0 < b.radius) ∧
    (∀ b ∈ (run realMath canvas640
        [Event.toggle, Event.click (10 : ℝ) 10 0.3 0.5 0.5 0.5,
          Event.reset (fun _ => ((1 / 2 : ℝ), 1 / 2))]
        (startup realMath canvas640 (fun _ => ((1 / 2 : ℝ), 1 / 2)))).balls,
      0 < b.radius) := by
  have hops : ∀ op ∈ [StoreOp.step, StoreOp.click (10 : ℝ) 10 0.3 0.5 0.5 0.5,
      StoreOp.reset (fun _ => ((1 / 2 : ℝ), 1 / 2))], op.valid := by
    intro op hop
    simp only [List.mem_cons, List.mem_singleton, List.not_mem_nil, or_false] at hop
    rcases hop with rfl | rfl | rfl <;> norm_num [StoreOp.valid, isRandom]
  have hev : ∀ e ∈ [Event.toggle, Event.click (10 : ℝ) 10 0.3 0.5 0.5 0.5,
      Event.reset (fun _ => ((1 / 2 : ℝ), 1 / 2))], e.valid := by
    intro e he
    simp only [List.mem_cons, List.mem_singleton, List.not_mem_nil, or_false] at he
    rcases he with rfl | rfl | rfl <;> norm_num [Event.valid, isRandom]
  have h := radius_positive_and_fixed realMath canvas640 (fun _ => ((1 / 2 : ℝ), 1 / 2))
    _ _ hops hev
  exact ⟨hops, hev, h.1, h.2.1⟩

/-- C12: when `isPaused` is true, `animate()` returns the state as it is: balls,
pause flag, `animationId`, queue and next handle; a queued frame that the host
runs while paused only leaves the queue, and no frame is queued. -/
theorem animate_paused (M : JSMath α) (canvas : Canvas α) (s : State α)
    (h : s.isPaused = true) :
    animate M canvas s = s ∧
    (∀ k : Nat, runFrame M canvas k s = { s with pending := s.pending.erase k }) ∧
    (∀ k : Nat, (runFrame M canvas k s).balls = s.balls ∧
      (runFrame M canvas k s).isPaused = true ∧
      (runFrame M canvas k s).nextHandle = s.nextHandle ∧
      (∀ k2 ∈ (runFrame M canvas k s).pending, k2 ∈ s.pending)) := by
  have ha : ∀ t : State α, t.isPaused = true → animate M canvas t = t := by
    intro t ht
    unfold animate
    simp only [ht, if_true]
  have hr : ∀ k : Nat, runFrame M canvas k s = { s with pending := s.pending.erase k } := by
    intro k
    unfold runFrame
    split
    · exact ha _ h
    · rename_i hk
      rw [List.erase_of_not_mem hk]
  refine ⟨ha s h, hr, ?_⟩
  intro k
  rw [hr k]
  exact ⟨rfl, h, rfl, fun k2 hk2 => List.mem_of_mem_erase hk2⟩

/-- C12 witness: a paused state with one ball and the frame 1 queued. -/
theorem animate_paused_witness :
    animate realMath canvas640
        { balls := [Ball.moving (100 : ℝ) 100 20 5 0]
          isPaused := true
          animationId := some 1
          pending := [1]
          nextHandle := 2 }
      = { balls := [Ball.moving (100 : ℝ) 100 20 5 0]
          isPaused := true
          animationId := some 1
          pending := [1]
          nextHandle := 2 } :=
  (animate_paused realMath canvas640 _ rfl).1

/-- C13: in a canvas at least as wide and as high as the ball, the ball lies
inside the walls after a single `update`, wherever it was and however fast. -/
theorem update_clamps_inside (b : Ball α) (canvas : Canvas α)
    (hW : 2 * b.radius ≤ canvas.width) (hH : 2 * b.radius ≤ canvas.height) :
    (b.update canvas).radius = b.radius ∧
    b.radius ≤ (b.update canvas).x ∧ (b.update canvas).x ≤ canvas.width - b.radius ∧
    b.radius ≤ (b.update canvas).y ∧ (b.update canvas).y ≤ canvas.height - b.radius := by
  have h := Ball.update_inside b canvas hW hH
  unfold Ball.inside at h
  rw [Ball.update_radius] at h
  exact ⟨Ball.update_radius b canvas, h⟩

/-- C13 witness: a ball far outside the canvas of 640 by 480 ends in its corner. -/
theorem update_clamps_inside_witness :
    2 * (Ball.moving (-100 : ℚ) 1000 20 (-50) 70).radius ≤ (canvas640 : Canvas ℚ).width ∧
    2 * (Ball.moving (-100 : ℚ) 1000 20 (-50) 70).radius ≤ (canvas640 : Canvas ℚ).height ∧
    (20 : ℚ) ≤ ((Ball.moving (-100 : ℚ) 1000 20 (-50) 70).update canvas640).x ∧
    ((Ball.moving (-100 : ℚ) 1000 20 (-50) 70).update canvas640).x ≤ 640 - 20 ∧
    (20 : ℚ) ≤ ((Ball.moving (-100 : ℚ) 1000 20 (-50) 70).update canvas640).y ∧
    ((Ball.moving (-100 : ℚ) 1000 20 (-50) 70).update canvas640).y ≤ 480 - 20 :=
  have hW : 2 * (Ball.moving (-100 : ℚ) 1000 20 (-50) 70).radius
      ≤ (canvas640 : Canvas ℚ).width := by norm_num [Ball.moving, canvas640]
  have hH : 2 * (Ball.moving (-100 : ℚ) 1000 20 (-50) 70).radius
      ≤ (canvas640 : Canvas ℚ).height := by norm_num [Ball.moving, canvas640]
  ⟨hW, hH, (update_clamps_inside (Ball.moving (-100 : ℚ) 1000 20 (-50) 70) canvas640 hW hH).2⟩

/-- C14: `checkCollisions` returns a store of the size of its argument for every
store, whatever the `Math` functions return.  For two balls with coincident
centers and `r1 + r2 > 0` the distance is 0 and the pair is flagged; with
`atan2(0, 0) = 0`, `cos 0 = 1`, `sin 0 = 0` the two balls exchange `dx`, keep
`dy` and `y`, and move by `-(r1 + r2) / 2` and `+(r1 + r2) / 2` in `x`. -/
theorem checkCollisions_coincident (M : JSMath α) (hM : M.Exact) (b1 b2 : Ball α)
    (hx : b1.x = b2.x) (hy : b1.y = b2.y) (hr : 0 < b1.radius + b2.radius) :
    (∀ (N : JSMath α) (balls : List (Ball α)),
      (checkCollisions N balls).length = balls.length) ∧
    centerDistance M b1 b2 = 0 ∧
    colliding M b1 b2 ∧
    M.atan2 (b2.y - b1.y) (b2.x - b1.x) = 0 ∧
    resolvePair M b1 b2 =
      ({ b1 with dx := b2.dx, x := b1.x - (b1.radius + b2.radius) / 2 },
       { b2 with dx := b1.dx, x := b2.x + (b1.radius + b2.radius) / 2 }) ∧
    checkCollisions M [b1, b2] =
      [{ b1 with dx := b2.dx, x := b1.x - (b1.radius + b2.radius) / 2 },
       { b2 with dx := b1.dx, x := b2.x + (b1.radius + b2.radius) / 2 }] := by
  have hd : centerDistance M b1 b2 = 0 := by
    apply hM.centerDistance_eq b1 b2 0 le_rfl
    rw [hx, hy]; ring
  have hcol : colliding M b1 b2 := by
    unfold colliding; rw [hd]; exact hr
  have hang : M.atan2 (b2.y - b1.y) (b2.x - b1.x) = 0 := by
    rw [hx, hy, sub_self, sub_self]; exact hM.atan2_zero
  have hres : resolvePair M b1 b2 =
      ({ b1 with dx := b2.dx, x := b1.x - (b1.radius + b2.radius) / 2 },
       { b2 with dx := b1.dx, x := b2.x + (b1.radius + b2.radius) / 2 }) := by
    rw [resolvePair_of_colliding M b1 b2 hcol, hd, hang, hM.cos_zero, hM.sin_zero]
    simp
  refine ⟨?_, hd, hcol, hang, hres, ?_⟩
  · intro N balls
    have h := congrArg List.length (checkCollisions_map_radius N balls)
    simpa using h
  · rw [checkCollisions_pair, hres]

/-- C14 witness: two balls with the same center `(100, 100)`, radii 20 and 30. -/
theorem checkCollisions_coincident_witness :
    checkCollisions realMath
        [Ball.moving (100 : ℝ) 100 20 3 1, Ball.moving 100 100 30 (-2) 4]
      = [Ball.moving 75 100 20 (-2) 1, Ball.moving 125 100 30 3 4] := by
  rw [(checkCollisions_coincident realMath realMath_exact
    (Ball.moving (100 : ℝ) 100 20 3 1) (Ball.moving 100 100 30 (-2) 4) rfl rfl
    (by norm_num [Ball.moving])).2.2.2.2.2]
  norm_num [Ball.moving]

/-- C15 at the failing trace: the script starts (frame 1 queued), the space key
is pressed twice before frame 1 runs (frames 1 and 2 queued, `animationId = 2`),
then `r` is pressed.  After `resetBalls` the frames 1 and 3 are queued: frame 1
was queued before the reset and has not been cancelled. -/
theorem resetBalls_after_double_toggle :
    (startup realMath canvas640 (fun _ => ((1 / 2 : ℝ), 1 / 2))).pending = [1] ∧
    (run realMath canvas640 [Event.toggle, Event.toggle]
      (startup realMath canvas640 (fun _ => ((1 / 2 : ℝ), 1 / 2)))).pending = [1, 2] ∧
    (run realMath canvas640 [Event.toggle, Event.toggle]
      (startup realMath canvas640 (fun _ => ((1 / 2 : ℝ), 1 / 2)))).animationId = some 2 ∧
    (run realMath canvas640
      [Event.toggle, Event.toggle, Event.reset (fun _ => ((1 / 2 : ℝ), 1 / 2))]
      (startup realMath canvas640 (fun _ => ((1 / 2 : ℝ), 1 / 2)))).pending = [1, 3] ∧
    (run realMath canvas640
      [Event.toggle, Event.toggle, Event.reset (fun _ => ((1 / 2 : ℝ), 1 / 2))]
      (startup realMath canvas640 (fun _ => ((1 / 2 : ℝ), 1 / 2)))).isPaused = false :=
  ⟨rfl, rfl, rfl, rfl, rfl⟩

/-- C19, as the code has it: when `update` triggers the left/right check in a
canvas at least as wide as the ball, the ball ends between the side walls and
the new `dx` is `-0.8` times the old one.  So it does not point into the wall the
ball is clamped against when the old `dx` pointed towards that wall or was 0;
this is the case for a ball that was inside the walls before the update, in a
canvas wider than the ball. -/
theorem update_side_bounce_direction (b : Ball α) (canvas : Canvas α)
    (hb : b.bounce = 0.8) (hW : 2 * b.radius ≤ canvas.width)
    (hs : b.x + b.dx - b.radius ≤ 0 ∨ b.x + b.dx + b.radius ≥ canvas.width) :
    (b.update canvas).dx = -b.dx * 0.8 ∧
    (b.radius ≤ (b.update canvas).x ∧ (b.update canvas).x ≤ canvas.width - b.radius) ∧
    ((b.update canvas).x = b.radius → b.dx ≤ 0 → 0 ≤ (b.update canvas).dx) ∧
    ((b.update canvas).x = canvas.width - b.radius → 0 ≤ b.dx → (b.update canvas).dx ≤ 0) ∧
    (2 * b.radius < canvas.width → b.radius ≤ b.x → b.x ≤ canvas.width - b.radius →
      ((b.update canvas).x = b.radius → 0 ≤ (b.update canvas).dx) ∧
      ((b.update canvas).x = canvas.width - b.radius → (b.update canvas).dx ≤ 0)) := by
  have hside : b.integrate.bounceSides canvas = { b with
      dx := -b.dx * b.bounce
      x := max b.radius (min (canvas.width - b.radius) (b.x + b.dx))
      y := b.y + b.dy } := by
    simp only [Ball.integrate, Ball.bounceSides, hs, if_true]
  have hdx : (b.update canvas).dx = -b.dx * 0.8 := by
    unfold Ball.update
    rw [(Ball.bounceTop_slower _ (Ball.bounceBottom_slower _ canvas
      (Ball.bounceSides_slower b.integrate canvas hb).1).1).2.2,
      (Ball.bounceBottom_slower _ canvas (Ball.bounceSides_slower b.integrate canvas hb).1).2.2,
      hside, hb]
  have hx : (b.update canvas).x = max b.radius (min (canvas.width - b.radius) (b.x + b.dx)) := by
    unfold Ball.update
    rw [Ball.bounceTop_x, Ball.bounceBottom_x, hside]
  refine ⟨hdx, ?_, ?_, ?_, ?_⟩
  · rw [hx]
    exact ⟨le_max_left _ _, max_le (by linarith) (min_le_left _ _)⟩
  · intro _ hneg
    rw [hdx]; nlinarith
  · intro _ hpos
    rw [hdx]; nlinarith
  · intro hW2 hl hr
    rw [hdx, hx]
    constructor
    · intro hend
      have h1 : min (canvas.width - b.radius) (b.x + b.dx) ≤ b.radius :=
        le_of_le_of_eq (le_max_right b.radius _) hend
      have h2 : b.x + b.dx ≤ b.radius := by
        rcases min_le_iff.1 h1 with h | h
        · linarith
        · exact h
      nlinarith
    · intro hend
      have h1 : canvas.width - b.radius ≤ min (canvas.width - b.radius) (b.x + b.dx) := by
        rcases max_choice b.radius (min (canvas.width - b.radius) (b.x + b.dx)) with h | h
        · rw [h] at hend; linarith
        · rw [h] at hend; rw [hend]
      have h2 : canvas.width - b.radius ≤ b.x + b.dx := (le_min_iff.1 h1).2
      nlinarith

/-- C19 witness: a ball inside the canvas of 640 by 480 that reaches the left
wall with `dx = -3` leaves it with `dx = 2.4`. -/
theorem update_side_bounce_direction_witness :
    (Ball.moving (22 : ℚ) 50 20 (-3) 0).bounce = 0.8 ∧
    2 * (Ball.moving (22 : ℚ) 50 20 (-3) 0).radius ≤ (canvas640 : Canvas ℚ).width ∧
    ((Ball.moving (22 : ℚ) 50 20 (-3) 0).x + (Ball.moving (22 : ℚ) 50 20 (-3) 0).dx
        - (Ball.moving (22 : ℚ) 50 20 (-3) 0).radius ≤ 0 ∨
      (Ball.moving (22 : ℚ) 50 20 (-3) 0).x + (Ball.moving (22 : ℚ) 50 20 (-3) 0).dx
        + (Ball.moving (22 : ℚ) 50 20 (-3) 0).radius ≥ (canvas640 : Canvas ℚ).width) ∧
    ((Ball.moving (22 : ℚ) 50 20 (-3) 0).update canvas640).dx = -(-3) * 0.8 :=
  have hW : 2 * (Ball.moving (22 : ℚ) 50 20 (-3) 0).radius ≤ (canvas640 : Canvas ℚ).width := by
    norm_num [Ball.moving, canvas640]
  have hs : (Ball.moving (22 : ℚ) 50 20 (-3) 0).x + (Ball.moving (22 : ℚ) 50 20 (-3) 0).dx
        - (Ball.moving (22 : ℚ) 50 20 (-3) 0).radius ≤ 0 ∨
      (Ball.moving (22 : ℚ) 50 20 (-3) 0).x + (Ball.moving (22 : ℚ) 50 20 (-3) 0).dx
        + (Ball.moving (22 : ℚ) 50 20 (-3) 0).radius ≥ (canvas640 : Canvas ℚ).width :=
    Or.inl (by norm_num [Ball.moving])
  ⟨rfl, hW, hs, (update_side_bounce_direction (Ball.moving (22 : ℚ) 50 20 (-3) 0) canvas640
    rfl hW hs).1⟩

/-- C19 counterexample: in the canvas of 640 by 480 a ball of radius 20 at
`x = 5` that moves away from the left wall with `dx = 3` triggers the left/right
check, ends at `x = 20 = radius` and has `dx = -2.4`, towards the wall. -/
theorem update_turns_into_wall :
    2 * (Ball.moving (5 : ℚ) 50 20 3 0).radius ≤ (canvas640 : Canvas ℚ).width ∧
    (Ball.moving (5 : ℚ) 50 20 3 0).x + (Ball.moving (5 : ℚ) 50 20 3 0).dx
      - (Ball.moving (5 : ℚ) 50 20 3 0).radius ≤ 0 ∧
    ((Ball.moving (5 : ℚ) 50 20 3 0).update canvas640).x
      = (Ball.moving (5 : ℚ) 50 20 3 0).radius ∧
    ((Ball.moving (5 : ℚ) 50 20 3 0).update canvas640).dx = -2.4 ∧
    ¬ (0 ≤ ((Ball.moving (5 : ℚ) 50 20 3 0).update canvas640).dx) := by
  have hupd : (Ball.moving (5 : ℚ) 50 20 3 0).update canvas640
      = Ball.moving 20 50 20 (-2.4) 0 := by
    norm_num [Ball.update, Ball.integrate, Ball.bounceSides, Ball.bounceBottom,
      Ball.bounceTop, Ball.moving, canvas640]
  rw [hupd]
  norm_num [Ball.moving, canvas640]

end MoreClaims

end BouncingBalls
